import Mathlib

/-!
Verification development for the `tourney` arena chess server.

The repository couples a Flask request surface (`src/app.py`), an arena
tournament engine (`src/arena.py`), the data model (`src/models.py`) and a
Glicko-2 rating core (`src/glicko2.py`).  Each definition below is a shallow
embedding of one source function; datetimes are embedded as integer
milliseconds, SQL rows as Lean structures, and Python floats as exact
rationals (arena bookkeeping) or reals (the Glicko-2 numerics).
-/

namespace Tourney

/-! ## Chess rules adapter

Modelled from the spec: the repository calls the external `python-chess`
library (`chess.Board`, `legal_moves`, `push`, `is_checkmate`, `is_stalemate`,
`is_insufficient_material`, `is_seventyfive_moves`), which `spec.md` §4.2 fixes
as a deterministic standard-chess move-legality and terminal-state oracle.
The embedding below implements standard chess over an explicit 64-square
board: square `i` has file `i % 8` and rank `i / 8` (`a1 = 0`, `h8 = 63`),
matching python-chess square numbering. -/

inductive Color where
  | white
  | black
deriving DecidableEq, Repr

def Color.other : Color → Color
  | .white => .black
  | .black => .white

inductive PieceType where
  | pawn
  | knight
  | bishop
  | rook
  | queen
  | king
deriving DecidableEq, Repr

structure Piece where
  color : Color
  ptype : PieceType
deriving DecidableEq, Repr

/-- A board is 64 optional pieces, square `rank * 8 + file`. -/
abbrev Board := List (Option Piece)

def pieceAt (b : Board) (sq : Nat) : Option Piece :=
  b.getD sq none

def fileOf (sq : Nat) : Int := (sq % 8 : Nat)

def rankOf (sq : Nat) : Int := (sq / 8 : Nat)

/-- Square of coordinates, `none` when off the board. -/
def sqOf (f r : Int) : Option Nat :=
  if 0 ≤ f ∧ f < 8 ∧ 0 ≤ r ∧ r < 8 then some (r.toNat * 8 + f.toNat) else none

/-- Walk from `(f, r)` in direction `(df, dr)`, returning the visited squares
up to and including the first occupied one. -/
def rayFrom (b : Board) (f r df dr : Int) : Nat → List Nat
  | 0 => []
  | fuel + 1 =>
    match sqOf (f + df) (r + dr) with
    | none => []
    | some s =>
      if (pieceAt b s).isSome then [s]
      else s :: rayFrom b (f + df) (r + dr) df dr fuel

/-- The first piece encountered walking from `(f, r)` in direction `(df, dr)`. -/
def firstPieceInDir (b : Board) (f r df dr : Int) : Nat → Option Piece
  | 0 => none
  | fuel + 1 =>
    match sqOf (f + df) (r + dr) with
    | none => none
    | some s =>
      match pieceAt b s with
      | some p => some p
      | none => firstPieceInDir b (f + df) (r + dr) df dr fuel

def knightOffsets : List (Int × Int) :=
  [(1, 2), (2, 1), (2, -1), (1, -2), (-1, -2), (-2, -1), (-2, 1), (-1, 2)]

def kingOffsets : List (Int × Int) :=
  [(0, 1), (1, 1), (1, 0), (1, -1), (0, -1), (-1, -1), (-1, 0), (-1, 1)]

def diagDirs : List (Int × Int) := [(1, 1), (1, -1), (-1, -1), (-1, 1)]

def orthoDirs : List (Int × Int) := [(0, 1), (1, 0), (0, -1), (-1, 0)]

/-- Rank direction in which pawns of `c` advance. -/
def pawnDir : Color → Int
  | .white => 1
  | .black => -1

/-- Is the square `sq` attacked by any piece of colour `c`? -/
def attackedBy (b : Board) (sq : Nat) (c : Color) : Bool :=
  let f := fileOf sq
  let r := rankOf sq
  let hasAt : Int → Int → Piece → Bool := fun df dr p =>
    match sqOf (f + df) (r + dr) with
    | some s => pieceAt b s == some p
    | none => false
  (knightOffsets.any fun d => hasAt d.1 d.2 ⟨c, .knight⟩) ||
  (kingOffsets.any fun d => hasAt d.1 d.2 ⟨c, .king⟩) ||
  (hasAt (-1) (-(pawnDir c)) ⟨c, .pawn⟩ || hasAt 1 (-(pawnDir c)) ⟨c, .pawn⟩) ||
  (diagDirs.any fun d =>
    match firstPieceInDir b f r d.1 d.2 7 with
    | some p => p.color == c && (p.ptype == .bishop || p.ptype == .queen)
    | none => false) ||
  (orthoDirs.any fun d =>
    match firstPieceInDir b f r d.1 d.2 7 with
    | some p => p.color == c && (p.ptype == .rook || p.ptype == .queen)
    | none => false)

def kingSquare (b : Board) (c : Color) : Option Nat :=
  (List.range 64).find? fun s => pieceAt b s == some ⟨c, .king⟩

structure Position where
  board : Board
  turn : Color
  castleWK : Bool
  castleWQ : Bool
  castleBK : Bool
  castleBQ : Bool
  epSquare : Option Nat
  halfmove : Nat
  fullmove : Nat
deriving DecidableEq, Repr

def inCheckColor (p : Position) (c : Color) : Bool :=
  match kingSquare p.board c with
  | some k => attackedBy p.board k c.other
  | none => false

/-- UCI move `<from><to>[<promo>]`. -/
structure Move where
  src : Nat
  dst : Nat
  promo : Option PieceType := none
deriving DecidableEq, Repr

def pawnStartRank : Color → Int
  | .white => 1
  | .black => 6

def pawnPromoRank : Color → Int
  | .white => 7
  | .black => 0

def promoChoices (c : Color) (toRank : Int) : List (Option PieceType) :=
  if toRank = pawnPromoRank c then
    [some .queen, some .rook, some .bishop, some .knight]
  else [none]

def pawnPseudoMoves (p : Position) (sq : Nat) : List Move :=
  let c := p.turn
  let f := fileOf sq
  let r := rankOf sq
  let d := pawnDir c
  let fwd : List Move :=
    match sqOf f (r + d) with
    | some s1 =>
      if (pieceAt p.board s1).isNone then
        let one := (promoChoices c (r + d)).map fun pr => Move.mk sq s1 pr
        let two : List Move :=
          if r = pawnStartRank c then
            match sqOf f (r + 2 * d) with
            | some s2 => if (pieceAt p.board s2).isNone then [Move.mk sq s2 none] else []
            | none => []
          else []
        one ++ two
      else []
    | none => []
  let caps : List Move :=
    [(-1 : Int), 1].flatMap fun df =>
      match sqOf (f + df) (r + d) with
      | some s =>
        let enemy :=
          match pieceAt p.board s with
          | some q => q.color == c.other
          | none => false
        if enemy || p.epSquare == some s then
          (promoChoices c (r + d)).map fun pr => Move.mk sq s pr
        else []
      | none => []
  fwd ++ caps

def leaperPseudoMoves (p : Position) (sq : Nat) (offs : List (Int × Int)) : List Move :=
  offs.filterMap fun d =>
    match sqOf (fileOf sq + d.1) (rankOf sq + d.2) with
    | some s =>
      match pieceAt p.board s with
      | some q => if q.color == p.turn then none else some (Move.mk sq s none)
      | none => some (Move.mk sq s none)
    | none => none

def sliderPseudoMoves (p : Position) (sq : Nat) (dirs : List (Int × Int)) : List Move :=
  dirs.flatMap fun d =>
    (rayFrom p.board (fileOf sq) (rankOf sq) d.1 d.2 7).filterMap fun s =>
      match pieceAt p.board s with
      | some q => if q.color == p.turn then none else some (Move.mk sq s none)
      | none => some (Move.mk sq s none)

/-- Castling moves: rights intact, path empty, king not in and not moving
through an attacked square. -/
def castlePseudoMoves (p : Position) : List Move :=
  let c := p.turn
  let home : Nat := if c == Color.white then 0 else 56
  let enemy := c.other
  let empty : Nat → Bool := fun s => (pieceAt p.board s).isNone
  let safe : Nat → Bool := fun s => !(attackedBy p.board s enemy)
  let rightsK := if c == Color.white then p.castleWK else p.castleBK
  let rightsQ := if c == Color.white then p.castleWQ else p.castleBQ
  let kside : List Move :=
    if rightsK && empty (home + 5) && empty (home + 6) &&
        safe (home + 4) && safe (home + 5) && safe (home + 6) then
      [Move.mk (home + 4) (home + 6) none]
    else []
  let qside : List Move :=
    if rightsQ && empty (home + 1) && empty (home + 2) && empty (home + 3) &&
        safe (home + 4) && safe (home + 3) && safe (home + 2) then
      [Move.mk (home + 4) (home + 2) none]
    else []
  kside ++ qside

def pseudoMoves (p : Position) : List Move :=
  ((List.range 64).flatMap fun sq =>
    match pieceAt p.board sq with
    | some q =>
      if q.color == p.turn then
        match q.ptype with
        | .pawn => pawnPseudoMoves p sq
        | .knight => leaperPseudoMoves p sq knightOffsets
        | .bishop => sliderPseudoMoves p sq diagDirs
        | .rook => sliderPseudoMoves p sq orthoDirs
        | .queen => sliderPseudoMoves p sq (diagDirs ++ orthoDirs)
        | .king => leaperPseudoMoves p sq kingOffsets
      else []
    | none => []) ++ castlePseudoMoves p

/-- Apply a pseudo-legal move: capture, en passant, promotion, castling rook
hop, castling-right/ep/halfmove bookkeeping, side to move. -/
def applyMove (p : Position) (m : Move) : Position :=
  match pieceAt p.board m.src with
  | none => p
  | some piece =>
    let isPawn := piece.ptype == PieceType.pawn
    let capturedDirect := pieceAt p.board m.dst
    let isEp := isPawn && p.epSquare == some m.dst && capturedDirect.isNone &&
      fileOf m.dst != fileOf m.src
    let epVictim : Int := (rankOf m.src) * 8 + fileOf m.dst
    let b1 := p.board.set m.src none
    let b2 := if isEp then b1.set epVictim.toNat none else b1
    let placed : Piece :=
      match m.promo with
      | some pt => ⟨piece.color, pt⟩
      | none => piece
    let b3 := b2.set m.dst (some placed)
    let isCastle := piece.ptype == PieceType.king &&
      ((fileOf m.dst - fileOf m.src = 2) || (fileOf m.src - fileOf m.dst = 2))
    let home : Nat := if piece.color == Color.white then 0 else 56
    let b4 :=
      if isCastle then
        if fileOf m.dst = 6 then
          (b3.set (home + 7) none).set (home + 5) (some ⟨piece.color, .rook⟩)
        else
          (b3.set home none).set (home + 3) (some ⟨piece.color, .rook⟩)
      else b3
    let kingMoved := piece.ptype == PieceType.king
    let touched : Nat → Bool := fun s => m.src == s || m.dst == s
    let castleWK' := p.castleWK && !(kingMoved && piece.color == Color.white) && !(touched 7)
    let castleWQ' := p.castleWQ && !(kingMoved && piece.color == Color.white) && !(touched 0)
    let castleBK' := p.castleBK && !(kingMoved && piece.color == Color.black) && !(touched 63)
    let castleBQ' := p.castleBQ && !(kingMoved && piece.color == Color.black) && !(touched 56)
    let ep' : Option Nat :=
      if isPawn && ((rankOf m.dst - rankOf m.src = 2) || (rankOf m.src - rankOf m.dst = 2)) then
        sqOf (fileOf m.src) ((rankOf m.src + rankOf m.dst) / 2)
      else none
    let capture := capturedDirect.isSome || isEp
    let halfmove' := if isPawn || capture then 0 else p.halfmove + 1
    let fullmove' := if p.turn == Color.black then p.fullmove + 1 else p.fullmove
    { board := b4
      turn := p.turn.other
      castleWK := castleWK'
      castleWQ := castleWQ'
      castleBK := castleBK'
      castleBQ := castleBQ'
      epSquare := ep'
      halfmove := halfmove'
      fullmove := fullmove' }

def legalMoves (p : Position) : List Move :=
  (pseudoMoves p).filter fun m => !(inCheckColor (applyMove p m) p.turn)

def isCheckmate (p : Position) : Bool :=
  inCheckColor p p.turn && (legalMoves p).isEmpty

def isStalemate (p : Position) : Bool :=
  !(inCheckColor p p.turn) && (legalMoves p).isEmpty

def piecesWithSquares (b : Board) : List (Piece × Nat) :=
  (List.range 64).filterMap fun s => (pieceAt b s).map fun p => (p, s)

def isInsufficientMaterial (p : Position) : Bool :=
  let ps := piecesWithSquares p.board
  let heavy := ps.any fun x =>
    x.1.ptype == PieceType.pawn || x.1.ptype == PieceType.rook || x.1.ptype == PieceType.queen
  if heavy then false
  else
    let minors := ps.filter fun x =>
      x.1.ptype == PieceType.knight || x.1.ptype == PieceType.bishop
    if minors.length ≤ 1 then true
    else if ps.any fun x => x.1.ptype == PieceType.knight then false
    else
      let bishops := ps.filter fun x => x.1.ptype == PieceType.bishop
      (bishops.all fun x => (fileOf x.2 + rankOf x.2) % 2 == 0) ||
      (bishops.all fun x => (fileOf x.2 + rankOf x.2) % 2 == 1)

def isSeventyFiveMoves (p : Position) : Bool :=
  150 ≤ p.halfmove && !(legalMoves p).isEmpty

def backRank (c : Color) : List (Option Piece) :=
  [some ⟨c, .rook⟩, some ⟨c, .knight⟩, some ⟨c, .bishop⟩, some ⟨c, .queen⟩,
   some ⟨c, .king⟩, some ⟨c, .bishop⟩, some ⟨c, .knight⟩, some ⟨c, .rook⟩]

def pawnRank (c : Color) : List (Option Piece) :=
  List.replicate 8 (some ⟨c, .pawn⟩)

/-- `rnbqkbnr/pppppppp/8/8/8/8/PPPPPPPP/RNBQKBNR w KQkq - 0 1` -/
def startPosition : Position :=
  { board := backRank .white ++ pawnRank .white ++ List.replicate 32 none ++
      pawnRank .black ++ backRank .black
    turn := .white
    castleWK := true
    castleWQ := true
    castleBK := true
    castleBQ := true
    epSquare := none
    halfmove := 0
    fullmove := 1 }

/-! ## Game rows and the clock / result state machine

`models.Game` (src/models.py:128-184) embedded with datetimes as integer
milliseconds and the `fen` column replaced by the `Position` it denotes;
`pgn_moves` and `move_times_ms` (space-separated strings in the schema) are
embedded as lists. -/

inductive GameResult where
  | ongoing
  | white
  | black
  | draw
deriving DecidableEq, Repr

structure Game where
  id : Nat
  tournament_id : Nat
  white_id : Nat
  black_id : Nat
  result : GameResult
  white_berserk : Bool
  black_berserk : Bool
  board : Position
  pgn_moves : List Move
  move_times_ms : List Int
  white_clock_ms : Int
  black_clock_ms : Int
  increment_ms : Int
  clock_running_for : Color
  last_clock_update : Option Int
  started_at : Int
  ended_at : Option Int
deriving DecidableEq, Repr

/-- `Game.live_clocks` (src/models.py:155-164): a pure read of the two clocks
at wall time `now`; only the running side is debited, and only while the game
is ongoing and `last_clock_update` is set. -/
def live_clocks (g : Game) (now : Int) : Int × Int :=
  let wc := g.white_clock_ms
  let bc := g.black_clock_ms
  if g.result = GameResult.ongoing ∧ g.last_clock_update.isSome then
    let elapsed := now - g.last_clock_update.getD 0
    if g.clock_running_for = Color.white then (max 0 (wc - elapsed), bc)
    else (wc, max 0 (bc - elapsed))
  else (wc, bc)

/-- Terminal detection of `make_move` (src/app.py:978-989).  After the push
the mover wins on checkmate (`"black" if is_black else "white"`), draws are
stalemate / insufficient material / 75 moves, then white's updated clock is
checked before black's. -/
def result_after_move (b' : Position) (moverIsWhite : Bool) (wc bc : Int) :
    Option GameResult :=
  if isCheckmate b' then
    some (if moverIsWhite then GameResult.white else GameResult.black)
  else if isStalemate b' || isInsufficientMaterial b' || isSeventyFiveMoves b' then
    some GameResult.draw
  else if wc ≤ 0 then some GameResult.black
  else if bc ≤ 0 then some GameResult.white
  else none

/-- The mutation block shared verbatim by `make_move` (src/app.py:953-976)
and `_maybe_play_bot_move` (src/app.py:1054-1076): debit the mover's clock
and add the increment (or, with no baseline, just set it), push the move,
record it and its think time, flip the running side, `last_clock_update =
now`.  `moverIsWhite` is `is_white` / `to_move_id == game.white_id`. -/
def move_updated (g : Game) (moverIsWhite : Bool) (m : Move) (now : Int) : Game :=
  let upd : Game × Int :=
    match g.last_clock_update with
    | some lcu =>
      let elapsed := now - lcu
      if moverIsWhite then
        ({ g with white_clock_ms := max 0 (g.white_clock_ms - elapsed) + g.increment_ms },
          max 0 elapsed)
      else
        ({ g with black_clock_ms := max 0 (g.black_clock_ms - elapsed) + g.increment_ms },
          max 0 elapsed)
    | none => ({ g with last_clock_update := some now }, 0)
  { upd.1 with
    board := applyMove g.board m
    pgn_moves := g.pgn_moves ++ [m]
    move_times_ms := g.move_times_ms ++ [upd.2]
    clock_running_for := if moverIsWhite then Color.black else Color.white
    last_clock_update := some now }

/-- `make_move` (src/app.py:924-1003), the state-changing core: guard that
the game is ongoing and it is the caller's turn, require the move legal, run
the shared mutation block, then detect a terminal state.  The caller's seat
is `playerIsWhite` (`is_white` in the source); HTTP-level failures are
`Except.error`. -/
def make_move (g : Game) (playerIsWhite : Bool) (m : Move) (now : Int) :
    Except String Game :=
  if g.result ≠ GameResult.ongoing then Except.error "game over"
  else if !((g.board.turn == Color.white && playerIsWhite) ||
      (g.board.turn == Color.black && !playerIsWhite)) then
    Except.error "not your turn"
  else if !((legalMoves g.board).contains m) then Except.error "illegal move"
  else
    match result_after_move (move_updated g playerIsWhite m now).board playerIsWhite
        (move_updated g playerIsWhite m now).white_clock_ms
        (move_updated g playerIsWhite m now).black_clock_ms with
    | some r =>
      Except.ok { move_updated g playerIsWhite m now with result := r, ended_at := some now }
    | none => Except.ok (move_updated g playerIsWhite m now)

/-- The commit phase of `_maybe_play_bot_move` (src/app.py:1042-1096): the
mover is the side to move on the re-read board, the chosen move is legal, and
the same mutation block and terminal detection run, with checkmate attributed
`"white" if to_move_id == game.white_id else "black"` (src/app.py:1079-1080),
i.e. again to the mover. -/
def bot_apply_move (g : Game) (m : Move) (now : Int) : Except String Game :=
  if g.result ≠ GameResult.ongoing then Except.error "not ongoing"
  else if !((legalMoves g.board).contains m) then Except.error "no legal move"
  else
    match result_after_move
        (move_updated g (g.board.turn == Color.white) m now).board
        (g.board.turn == Color.white)
        (move_updated g (g.board.turn == Color.white) m now).white_clock_ms
        (move_updated g (g.board.turn == Color.white) m now).black_clock_ms with
    | some r =>
      Except.ok { move_updated g (g.board.turn == Color.white) m now with
                    result := r, ended_at := some now }
    | none => Except.ok (move_updated g (g.board.turn == Color.white) m now)

/-- `resign` (src/app.py:1103-1117): the other colour wins and `ended_at` is
stamped; nothing else on the row changes. -/
def resign (g : Game) (callerIsWhite : Bool) (now : Int) : Except String Game :=
  if g.result ≠ GameResult.ongoing then Except.error "game already over"
  else
    let r := if callerIsWhite then GameResult.black else GameResult.white
    Except.ok { g with result := r, ended_at := some now }

/-- `claim_time` (src/app.py:1120-1154): persist the recomputed clocks and
`last_clock_update = now`; only the opponent's fallen flag ends the game. -/
def claim_time (g : Game) (callerIsWhite : Bool) (now : Int) :
    Except String (Game × Option GameResult) :=
  if g.result ≠ GameResult.ongoing then Except.error "game already over"
  else
    let wb := live_clocks g now
    let g1 := { g with
      white_clock_ms := wb.1
      black_clock_ms := wb.2
      last_clock_update := some now }
    let r : Option GameResult :=
      if callerIsWhite ∧ wb.2 ≤ 0 then some GameResult.white
      else if ¬callerIsWhite ∧ wb.1 ≤ 0 then some GameResult.black
      else none
    match r with
    | some res => Except.ok ({ g1 with result := res, ended_at := some now }, some res)
    | none => Except.ok (g1, none)

/-- One game's share of `ArenaEngine._check_clock_timeouts`
(src/arena.py:61-85): for an ongoing game with a clock baseline, debit the
running side; a fallen flag sets `result` and `ended_at` only — the stored
clocks and `last_clock_update` are left as they were. -/
def check_clock_timeout (g : Game) (now : Int) : Game :=
  if g.result ≠ GameResult.ongoing then g
  else
    match g.last_clock_update with
    | none => g
    | some lcu =>
      let elapsed := now - lcu
      let wc := if g.clock_running_for = Color.white then
          max 0 (g.white_clock_ms - elapsed) else g.white_clock_ms
      let bc := if g.clock_running_for = Color.white then g.black_clock_ms
        else max 0 (g.black_clock_ms - elapsed)
      if wc ≤ 0 then { g with result := GameResult.black, ended_at := some now }
      else if bc ≤ 0 then { g with result := GameResult.white, ended_at := some now }
      else g

/-! ## Time-control parsing

`Tournament._parse_time_control` (src/models.py:68-75): split the stored
string on `"+"`, convert the first field (and the second when present) with
Python's `int`, fall back to `(180000, 2000)` when conversion raises.
`pySplit` and `pyInt` embed `str.split` and `int` for ASCII input: `int`
ignores surrounding whitespace, takes one optional sign, and accepts single
underscores between digits. -/

def pySplit (sep : Char) : List Char → List (List Char)
  | [] => [[]]
  | c :: rest =>
    if c = sep then [] :: pySplit sep rest
    else
      match pySplit sep rest with
      | h :: t => (c :: h) :: t
      | [] => [[c]]

def pyWhitespace (c : Char) : Bool :=
  c == ' ' || c == '\t' || c == '\n' || c == '\r' || c == '\x0b' || c == '\x0c'

def pyStrip (cs : List Char) : List Char :=
  ((cs.dropWhile pyWhitespace).reverse.dropWhile pyWhitespace).reverse

/-- Digit run with single underscores between digits; `prev` records whether
the previous character was a digit. -/
def pyDigits : List Char → Nat → Bool → Option Nat
  | [], acc, prev => if prev then some acc else none
  | c :: rest, acc, prev =>
    if c.isDigit then pyDigits rest (acc * 10 + (c.toNat - '0'.toNat)) true
    else if c = '_' then
      if prev then pyDigits rest acc false else none
    else none

def pyInt (cs : List Char) : Option Int :=
  match pyStrip cs with
  | '+' :: rest => (pyDigits rest 0 false).map Int.ofNat
  | '-' :: rest => (pyDigits rest 0 false).map fun n => -(Int.ofNat n)
  | t => (pyDigits t 0 false).map Int.ofNat

def parse_time_control (s : String) : Int × Int :=
  match pySplit '+' s.data with
  | [] => (180000, 2000)
  | p0 :: rest =>
    match pyInt p0 with
    | none => (180000, 2000)
    | some m =>
      match rest with
      | [] => (m * 60000, 0)
      | p1 :: _ =>
        match pyInt p1 with
        | none => (180000, 2000)
        | some i => (m * 60000, i * 1000)

/-! ## Arena engine state

Rows of `models.py` and the state the `ArenaEngine` (src/arena.py) mutates.
Float columns are embedded as rationals.  The two numeric rating routines
(`glicko2.update_rating`, `glicko2.performance_rating`) are real-valued float
code; the arena bookkeeping never inspects their output, so the arena
operations take them as parameters `updR` / `perfR` (their real-number
embedding, for the part a claim depends on, is in the Glicko section). -/

structure Player where
  id : Nat
  rating : ℚ
  rd : ℚ
  volatility : ℚ
  games_played : Nat
deriving DecidableEq, Repr

inductive TStatus where
  | waiting
  | active
  | finished
deriving DecidableEq, Repr

structure Tournament where
  id : Nat
  name : String
  time_control : String
  status : TStatus
  started_at : Option Int
  ends_at : Option Int
deriving DecidableEq, Repr

structure TournamentPlayer where
  tournament_id : Nat
  player_id : Nat
  score : Nat
  win_streak : Nat
  games_played : Nat
  wins : Nat
  draws : Nat
  losses : Nat
  berserks : Nat
  performance_rating : ℚ
  in_queue : Bool
  queue_joined_at : Option Int
  joined_at : Int
  active : Bool
deriving DecidableEq, Repr

structure PairingRow where
  tournament_id : Nat
  player_a_id : Nat
  player_b_id : Nat
  paired_at : Int
deriving DecidableEq, Repr

structure RatingRow where
  player_id : Nat
  tournament_id : Nat
  rating : ℚ
  rd : ℚ
deriving DecidableEq, Repr

structure ArenaState where
  players : List Player
  tournaments : List Tournament
  tps : List TournamentPlayer
  games : List Game
  pairing_history : List PairingRow
  rating_history : List RatingRow
deriving DecidableEq, Repr

def findPlayer (s : ArenaState) (pid : Nat) : Option Player :=
  s.players.find? fun p => p.id == pid

def ratingOf (s : ArenaState) (pid : Nat) : ℚ :=
  ((findPlayer s pid).map Player.rating).getD 0

def findGame (s : ArenaState) (gid : Nat) : Option Game :=
  s.games.find? fun g => g.id == gid

def findTournament (s : ArenaState) (tid : Nat) : Option Tournament :=
  s.tournaments.find? fun t => t.id == tid

def findTP (s : ArenaState) (tid pid : Nat) : Option TournamentPlayer :=
  s.tps.find? fun tp => tp.tournament_id == tid && tp.player_id == pid

/-- ORM mutation of the join row keyed `(tournament_id, player_id)`. -/
def updateTP (tps : List TournamentPlayer) (tid pid : Nat)
    (f : TournamentPlayer → TournamentPlayer) : List TournamentPlayer :=
  tps.map fun tp =>
    if tp.tournament_id == tid && tp.player_id == pid then f tp else tp

inductive Outcome where
  | win
  | draw
  | loss
deriving DecidableEq, Repr

/-- `ArenaEngine._apply_score` (src/arena.py:235-254).  `SCORE_WIN = 2`,
`SCORE_DRAW = 1`, `SCORE_LOSS = 0`, `STREAK_THRESHOLD = 2`; the streak is
incremented before the `win_streak > STREAK_THRESHOLD` bonus test. -/
def apply_score (tp : TournamentPlayer) (outcome : Outcome) (berserk : Bool) :
    TournamentPlayer :=
  let tp1 :=
    match outcome with
    | .win =>
      let t := { tp with
        wins := tp.wins + 1
        score := tp.score + 2
        win_streak := tp.win_streak + 1 }
      let t := if 2 < t.win_streak then { t with score := t.score + 1 } else t
      if berserk then { t with score := t.score + 1, berserks := t.berserks + 1 } else t
    | .draw => { tp with draws := tp.draws + 1, score := tp.score + 1, win_streak := 0 }
    | .loss => { tp with losses := tp.losses + 1, score := tp.score + 0, win_streak := 0 }
  { tp1 with games_played := tp1.games_played + 1 }

/-- The drawn/lost/won score of `pid` in a finished game, as in
src/arena.py:269-274 and 299-304. -/
def scoreForPlayer (g : Game) (pid : Nat) : ℚ :=
  if g.white_id == pid then
    if g.result = GameResult.white then 1 else if g.result = GameResult.draw then 1/2 else 0
  else
    if g.result = GameResult.black then 1 else if g.result = GameResult.draw then 1/2 else 0

def finishedGamesOf (s : ArenaState) (tid pid : Nat) : List Game :=
  s.games.filter fun g =>
    g.tournament_id == tid && (g.white_id == pid || g.black_id == pid) &&
      g.result != GameResult.ongoing

/-- `ArenaEngine._update_performance` (src/arena.py:256-277): replay every
completed game of the player in this tournament through the
performance-rating estimator `perfR`. -/
def update_performance (perfR : List ℚ → List ℚ → ℚ) (s : ArenaState)
    (tp : TournamentPlayer) : TournamentPlayer :=
  let gs := finishedGamesOf s tp.tournament_id tp.player_id
  let opp_ratings := gs.map fun g =>
    ratingOf s (if g.white_id == tp.player_id then g.black_id else g.white_id)
  let scores := gs.map fun g => scoreForPlayer g tp.player_id
  if opp_ratings.isEmpty then tp
  else { tp with performance_rating := perfR opp_ratings scores }

/-- One join row's share of the `_finish_tournament` loop
(src/arena.py:286-326): gather the player's completed games, run the Glicko-2
update `updR`, persist the new triple, bump `games_played`, append a
`RatingHistory` row.  Ratings of opponents are read from the current state,
as the source's identity-mapped session does. -/
def finish_step (updR : ℚ → ℚ → ℚ → List ℚ → List ℚ → List ℚ → ℚ × ℚ × ℚ)
    (tid : Nat) (s : ArenaState) (tp : TournamentPlayer) : ArenaState :=
  match findPlayer s tp.player_id with
  | none => s
  | some player =>
    let gs := finishedGamesOf s tid tp.player_id
    let oppIds := gs.map fun g =>
      if g.white_id == tp.player_id then g.black_id else g.white_id
    let opp_ratings := oppIds.map (ratingOf s)
    let opp_rds := oppIds.map fun pid => ((findPlayer s pid).map Player.rd).getD 0
    let scores := gs.map fun g => scoreForPlayer g tp.player_id
    if opp_ratings.isEmpty then s
    else
      let res := updR player.rating player.rd player.volatility opp_ratings opp_rds scores
      { s with
        players := s.players.map fun p =>
          if p.id == tp.player_id then
            { p with
              rating := res.1
              rd := res.2.1
              volatility := res.2.2
              games_played := p.games_played + opp_ratings.length }
          else p
        rating_history := s.rating_history ++
          [⟨tp.player_id, tid, res.1, res.2.1⟩] }

/-- `ArenaEngine._finish_tournament` (src/arena.py:279-328). -/
def finish_tournament (updR : ℚ → ℚ → ℚ → List ℚ → List ℚ → List ℚ → ℚ × ℚ × ℚ)
    (s : ArenaState) (tid : Nat) : ArenaState :=
  let ts := s.tournaments.map fun t =>
    if t.id == tid then { t with status := TStatus.finished } else t
  let s1 := { s with tournaments := ts }
  (s1.tps.filter fun tp => tp.tournament_id == tid).foldl (finish_step updR tid) s1

/-- `tournament.name.startswith("Casual ")` (src/arena.py:48,123): casual
one-off events are tournaments whose names begin `Casual `. -/
def startsWithCasual (s : String) : Bool :=
  "Casual ".data.isPrefixOf s.data

/-- `ArenaEngine._apply_game_result_to_tournament` (src/arena.py:87-124):
score both join rows, recompute both performance ratings, re-enqueue both
players with `queue_joined_at = now`, and finish a casual tournament. -/
def apply_game_result_to_tournament (perfR : List ℚ → List ℚ → ℚ)
    (updR : ℚ → ℚ → ℚ → List ℚ → List ℚ → List ℚ → ℚ × ℚ × ℚ)
    (s : ArenaState) (game_id : Nat) (result : GameResult) (now : Int) : ArenaState :=
  match findGame s game_id with
  | none => s
  | some game =>
    if (findTP s game.tournament_id game.white_id).isNone ||
        (findTP s game.tournament_id game.black_id).isNone then s
    else
      let outcomes : Outcome × Bool × Outcome × Bool :=
        match result with
        | .white => (.win, game.white_berserk, .loss, false)
        | .black => (.loss, false, .win, game.black_berserk)
        | _ => (.draw, false, .draw, false)
      let tps1 := updateTP s.tps game.tournament_id game.white_id
        fun tp => apply_score tp outcomes.1 outcomes.2.1
      let tps2 := updateTP tps1 game.tournament_id game.black_id
        fun tp => apply_score tp outcomes.2.2.1 outcomes.2.2.2
      let s2 := { s with tps := tps2 }
      let tps3 := updateTP s2.tps game.tournament_id game.white_id
        (update_performance perfR s2)
      let tps4 := updateTP tps3 game.tournament_id game.black_id
        (update_performance perfR { s2 with tps := tps3 })
      let tps5 := updateTP tps4 game.tournament_id game.white_id
        fun tp => { tp with in_queue := true, queue_joined_at := some now }
      let tps6 := updateTP tps5 game.tournament_id game.black_id
        fun tp => { tp with in_queue := true, queue_joined_at := some now }
      let s3 := { s with tps := tps6 }
      match findTournament s3 game.tournament_id with
      | some t =>
        if startsWithCasual t.name && t.status != TStatus.finished then
          finish_tournament updR s3 t.id
        else s3
      | none => s3

/-- `ArenaEngine.submit_result` (src/arena.py:219-233): only an ongoing game
row is stamped with the result, but `_apply_game_result_to_tournament` runs
unconditionally. -/
def submit_result (perfR : List ℚ → List ℚ → ℚ)
    (updR : ℚ → ℚ → ℚ → List ℚ → List ℚ → List ℚ → ℚ × ℚ × ℚ)
    (s : ArenaState) (game_id : Nat) (result : GameResult)
    (white_berserk black_berserk : Bool) (now : Int) : ArenaState :=
  match findGame s game_id with
  | none => s
  | some game =>
    let s1 :=
      if game.result = GameResult.ongoing then
        { s with games := s.games.map fun g =>
            if g.id == game_id then
              { g with
                result := result
                ended_at := some now
                white_berserk := white_berserk || g.white_berserk
                black_berserk := black_berserk || g.black_berserk }
            else g }
      else s
    apply_game_result_to_tournament perfR updR s1 game_id result now

/-- `ArenaEngine._get_recent_opponents` (src/arena.py:126-142): opponents of
`pid` recorded in `PairingHistory` for this tournament within the last 10
minutes. -/
def get_recent_opponents (hist : List PairingRow) (tid pid : Nat) (now : Int) :
    List Nat :=
  ((hist.filter fun row =>
    row.tournament_id == tid &&
      (row.player_a_id == pid || row.player_b_id == pid) &&
      now - 600000 ≤ row.paired_at).map
    fun row => if row.player_a_id == pid then row.player_b_id else row.player_a_id)

/-- Stable insertion sort (Python's `list.sort` and the SQL `ORDER BY` are
stable for our purposes: equal keys keep their relative order). -/
def insSorted (le : α → α → Bool) (a : α) : List α → List α
  | [] => [a]
  | b :: t => if le a b then a :: b :: t else b :: insSorted le a t

def sortBy (le : α → α → Bool) (l : List α) : List α :=
  l.foldr (insSorted le) []

/-- One candidate of the inner scan of `_pair_tournament`
(src/arena.py:168-184): skip the paired, the player themself and recent
opponents; otherwise keep whichever of the running best and this candidate
has the strictly smaller `|Δscore| * 1000 + |Δrating|`. -/
def find_best_step (ratingOfF : Nat → ℚ) (tp : TournamentPlayer)
    (recent : List Nat) (paired : List Nat)
    (best : Option (TournamentPlayer × ℚ)) (other : TournamentPlayer) :
    Option (TournamentPlayer × ℚ) :=
  if paired.contains other.player_id || other.player_id == tp.player_id ||
      recent.contains other.player_id then best
  else
    let combined : ℚ :=
      |(tp.score : ℚ) - (other.score : ℚ)| * 1000 +
        |ratingOfF tp.player_id - ratingOfF other.player_id|
    match best with
    | none => some (other, combined)
    | some bb => if combined < bb.2 then some (other, combined) else some bb

/-- The inner candidate scan of `_pair_tournament` (src/arena.py:165-184):
the other unpaired, non-recent player minimising
`|Δscore| * 1000 + |Δrating|`, keeping the first optimum. -/
def find_best (ratingOfF : Nat → ℚ) (tp : TournamentPlayer)
    (queue : List TournamentPlayer) (recent : List Nat) (paired : List Nat) :
    Option TournamentPlayer :=
  (queue.foldl (find_best_step ratingOfF tp recent paired) none).map Prod.fst

/-- The greedy outer loop of `_pair_tournament` (src/arena.py:160-189). -/
def pair_loop (ratingOfF : Nat → ℚ) (queue : List TournamentPlayer)
    (recentOf : Nat → List Nat) :
    List TournamentPlayer → List Nat → List (TournamentPlayer × TournamentPlayer)
  | [], _ => []
  | tp :: rest, paired =>
    if paired.contains tp.player_id then pair_loop ratingOfF queue recentOf rest paired
    else
      match find_best ratingOfF tp queue (recentOf tp.player_id) paired with
      | none => pair_loop ratingOfF queue recentOf rest paired
      | some best =>
        (tp, best) ::
          pair_loop ratingOfF queue recentOf rest
            (paired ++ [tp.player_id, best.player_id])

/-- The pairs `_pair_tournament` (src/arena.py:144-189) builds for tournament
`t` at time `now`: the in-queue active join rows, ordered by
`queue_joined_at` and re-sorted by `(-score, rating)`, fed to the greedy
matcher with the anti-rematch set. -/
def pair_tournament_pairs (s : ArenaState) (t : Tournament) (now : Int) :
    List (TournamentPlayer × TournamentPlayer) :=
  let queue0 := s.tps.filter fun tp =>
    tp.tournament_id == t.id && tp.in_queue && tp.active
  if queue0.length < 2 then []
  else
    let queue1 := sortBy
      (fun a b => a.queue_joined_at.getD 0 ≤ b.queue_joined_at.getD 0) queue0
    let queue := sortBy
      (fun a b =>
        (-(a.score : Int) < -(b.score : Int)) ||
          (-(a.score : Int) == -(b.score : Int) &&
            ratingOf s a.player_id ≤ ratingOf s b.player_id))
      queue1
    pair_loop (ratingOf s) queue
      (fun pid => get_recent_opponents s.pairing_history t.id pid now) queue []

/-- The write phase of `_pair_tournament` (src/arena.py:191-217): one new
ongoing `Game` and one `PairingHistory` row per pair, clocks from the parsed
time control, `last_clock_update = now`, and `in_queue` cleared for both
players.  Game ids continue from the largest existing id. -/
def pair_tournament (s : ArenaState) (t : Tournament) (now : Int) : ArenaState :=
  let pairs := pair_tournament_pairs s t now
  let tc := parse_time_control t.time_control
  let nextId := (s.games.map Game.id).foldr max 0 + 1
  let newGames := pairs.enum.map fun pr =>
    ({ id := nextId + pr.1
       tournament_id := t.id
       white_id := pr.2.1.player_id
       black_id := pr.2.2.player_id
       result := GameResult.ongoing
       white_berserk := false
       black_berserk := false
       board := startPosition
       pgn_moves := []
       move_times_ms := []
       white_clock_ms := tc.1
       black_clock_ms := tc.1
       increment_ms := tc.2
       clock_running_for := Color.white
       last_clock_update := some now
       started_at := now
       ended_at := none } : Game)
  let newRows := pairs.map fun pr =>
    ({ tournament_id := t.id
       player_a_id := pr.1.player_id
       player_b_id := pr.2.player_id
       paired_at := now } : PairingRow)
  let pairedIds := pairs.flatMap fun pr => [pr.1.player_id, pr.2.player_id]
  { s with
    games := s.games ++ newGames
    pairing_history := s.pairing_history ++ newRows
    tps := s.tps.map fun tp =>
      if tp.tournament_id == t.id && pairedIds.contains tp.player_id then
        { tp with in_queue := false }
      else tp }

/-- `ArenaEngine.join_tournament` (src/arena.py:352-379). -/
def join_tournament (s : ArenaState) (tid pid : Nat) (now : Int) : ArenaState :=
  match findTournament s tid with
  | none => s
  | some t =>
    if t.status = TStatus.finished then s
    else
      match findTP s tid pid with
      | some _ =>
        { s with tps := updateTP s.tps tid pid fun tp =>
            let tp1 := if !tp.active then { tp with active := true } else tp
            if !tp1.in_queue then
              { tp1 with in_queue := true, queue_joined_at := some now }
            else tp1 }
      | none =>
        { s with tps := s.tps ++
            [{ tournament_id := tid
               player_id := pid
               score := 0
               win_streak := 0
               games_played := 0
               wins := 0
               draws := 0
               losses := 0
               berserks := 0
               performance_rating := 0
               in_queue := true
               queue_joined_at := some now
               joined_at := now
               active := true }] }

/-- `ArenaEngine.leave_tournament` (src/arena.py:381-390). -/
def leave_tournament (s : ArenaState) (tid pid : Nat) : ArenaState :=
  { s with tps := updateTP s.tps tid pid fun tp =>
      { tp with in_queue := false, active := false } }

/-! ## Glicko-2 rating core

`glicko2.update_rating` (src/glicko2.py:81-117), float arithmetic embedded
over the reals.  Every call site in the arena reaches the general branch only
with a non-empty batch; the claim under scrutiny concerns the empty-batch
branch (src/glicko2.py:88-91), embedded exactly here. -/

noncomputable section

def GLICKO2_SCALE : ℝ := 173.7178

/-- The `if not opponent_ratings` branch of `update_rating`
(src/glicko2.py:88-91): `phi_star = sqrt(rd² / scale² + volatility²)`,
`new_rd = phi_star * scale`, returning
`(rating, min(new_rd, 350.0), volatility)`. -/
def update_rating_empty (rating rd volatility : ℝ) : ℝ × ℝ × ℝ :=
  let phi_star := Real.sqrt (rd ^ 2 / GLICKO2_SCALE ^ 2 + volatility ^ 2)
  let new_rd := phi_star * GLICKO2_SCALE
  (rating, min new_rd 350, volatility)

end

/-! ## Concrete fixtures used by witnesses and counterexamples -/

/-- A single game row with the bookkeeping fields fixed; ids `1` (white) and
`2` (black) in tournament `1`. -/
def mkGame (board : Position) (res : GameResult) (wc bc inc : Int) (run : Color)
    (lcu : Option Int) : Game :=
  { id := 1
    tournament_id := 1
    white_id := 1
    black_id := 2
    result := res
    white_berserk := false
    black_berserk := false
    board := board
    pgn_moves := []
    move_times_ms := []
    white_clock_ms := wc
    black_clock_ms := bc
    increment_ms := inc
    clock_running_for := run
    last_clock_update := lcu
    started_at := 0
    ended_at := none }

def resultOf : Except String Game → Option GameResult
  | .ok g => some g.result
  | .error _ => none

/-- A fresh join row for player `1` in tournament `1`. -/
def tpFix : TournamentPlayer :=
  { tournament_id := 1
    player_id := 1
    score := 0
    win_streak := 0
    games_played := 0
    wins := 0
    draws := 0
    losses := 0
    berserks := 0
    performance_rating := 0
    in_queue := true
    queue_joined_at := some 100
    joined_at := 0
    active := true }

/-- A state in which game `1` has already finished `white` and its result has
already been applied once: player `1` holds the win, player `2` the loss. -/
def c1_state : ArenaState :=
  { players := [⟨1, 500, 250, 6/100, 0⟩, ⟨2, 500, 250, 6/100, 0⟩]
    tournaments := [⟨1, "Evening Arena", "3+2", .active, some 0, some 3600000⟩]
    tps := [{ tpFix with score := 2, wins := 1, games_played := 1, win_streak := 1 },
            { tpFix with player_id := 2, losses := 1, games_played := 1 }]
    games := [mkGame startPosition .white 1000 1000 0 .white (some 0)]
    pairing_history := []
    rating_history := [] }

/-- Play a sequence of (seat, move) pairs through `make_move` at a fixed wall
time. -/
def playMoves (g : Game) (ms : List (Bool × Move)) (now : Int) :
    Except String Game :=
  ms.foldlM (fun acc bm => make_move acc bm.1 bm.2 now) g

/-- Value of a digit string (most significant first). -/
def digitsVal (cs : List Char) : Nat :=
  cs.foldl (fun a c => a * 10 + (c.toNat - '0'.toNat)) 0

/-- The spec's queue invariant (`spec.md` §3, TournamentPlayer): an enqueued
row belongs to an active participation and its player sits in no ongoing
game. -/
def queueInvariant (s : ArenaState) : Prop :=
  ∀ tp ∈ s.tps, tp.in_queue = true →
    tp.active = true ∧
      ∀ g ∈ s.games, g.result = GameResult.ongoing →
        g.white_id ≠ tp.player_id ∧ g.black_id ≠ tp.player_id

/-- How a join row of the result-application chain relates to its original:
keys and `active` survive, and once it is enqueued the original was either
already enqueued or belongs to one of the finished game's two players. -/
def rowTransport (wid bid : Nat) (tp' tp : TournamentPlayer) : Prop :=
  tp'.tournament_id = tp.tournament_id ∧ tp'.player_id = tp.player_id ∧
    tp'.active = tp.active ∧
    (tp'.in_queue = true →
      tp.in_queue = true ∨ tp.player_id = wid ∨ tp.player_id = bid)

/-- Boolean check: no pair produced by the pairing phase has a
`PairingHistory` row (in either column order) in this tournament within the
last 10 minutes. -/
def no_rematch_check (s : ArenaState) (t : Tournament) (now : Int) : Bool :=
  (pair_tournament_pairs s t now).all fun pr =>
    s.pairing_history.all fun row =>
      !(row.tournament_id == t.id &&
        (now - 600000 ≤ row.paired_at) &&
        ((row.player_a_id == pr.1.player_id && row.player_b_id == pr.2.player_id) ||
         (row.player_a_id == pr.2.player_id && row.player_b_id == pr.1.player_id)))

/-- The player ids matched by the pairing phase. -/
def pairedPlayerIds (s : ArenaState) (t : Tournament) (now : Int) : List Nat :=
  (pair_tournament_pairs s t now).flatMap fun pr => [pr.1.player_id, pr.2.player_id]

/-- Boolean check: every join row that the pairing phase did not match
survives the tick unchanged (in particular it remains queued). -/
def unpaired_unchanged_check (s : ArenaState) (t : Tournament) (now : Int) : Bool :=
  s.tps.all fun tp =>
    (tp.tournament_id == t.id && (pairedPlayerIds s t now).contains tp.player_id) ||
      (pair_tournament s t now).tps.contains tp

/-- A state whose two players are mid-game (game ongoing, neither queued):
the setting for the C5 counterexample. -/
def c5_state : ArenaState :=
  { players := [⟨1, 500, 250, 6/100, 0⟩, ⟨2, 500, 250, 6/100, 0⟩]
    tournaments := [⟨1, "Evening Arena", "3+2", .active, some 0, some 3600000⟩]
    tps := [{ tpFix with in_queue := false },
            { tpFix with player_id := 2, in_queue := false }]
    games := [mkGame startPosition .ongoing 180000 180000 2000 .white (some 0)]
    pairing_history := []
    rating_history := [] }

/-- An ongoing game used for the C2 counterexample: clock baseline at 1000. -/
def c2_game : Game := mkGame startPosition .ongoing 60000 60000 0 .white (some 1000)

/-- `c2_game` after white resigns at `now = 5000`. -/
def c2_resigned : Game :=
  match resign c2_game true 5000 with
  | .ok g => g
  | .error _ => c2_game

/-- Scholar's mate, `e2e4 e7e5 f1c4 b8c6 d1h5 g8f6 h5f7`, as (seat, UCI)
pairs (square `i` = rank`*8+`file, `a1 = 0`). -/
def scholarSeq : List (Bool × Move) :=
  [(true, ⟨12, 28, none⟩), (false, ⟨52, 36, none⟩), (true, ⟨5, 26, none⟩),
   (false, ⟨57, 42, none⟩), (true, ⟨3, 39, none⟩), (false, ⟨62, 45, none⟩),
   (true, ⟨39, 53, none⟩)]

def scholarStart : Game := mkGame startPosition .ongoing 180000 180000 0 .white (some 0)

/-- A sparse mate-in-one: white Kf6, Qg1 against the lone black Kh8; `Qg1-g7`
is mate. -/
def miniBoard : Board :=
  (((List.replicate 64 (none : Option Piece)).set 45 (some ⟨.white, .king⟩)).set 6
    (some ⟨.white, .queen⟩)).set 63 (some ⟨.black, .king⟩)

def miniPos : Position := ⟨miniBoard, .white, false, false, false, false, none, 10, 40⟩

def miniGame : Game := mkGame miniPos .ongoing 60000 60000 0 .white (some 0)

def miniAfter : Game :=
  match make_move miniGame true ⟨6, 54, none⟩ 0 with
  | .ok g => g
  | .error _ => miniGame

/-- C6 counterexample fixture: after `1.e4`, black to move, white's *stored*
clock already 0 (reachable through a failed time claim by white), black's at
100 ms with no increment. -/
def c6x_game : Game :=
  mkGame (applyMove startPosition ⟨12, 28, none⟩) .ongoing 0 100 0 .black (some 0)

def c6x_after : Game :=
  match make_move c6x_game false ⟨52, 36, none⟩ 600 with
  | .ok g => g
  | .error _ => c6x_game

/-- The spec's flag-fall scenario: clocks pre-set to `white = 500`,
`black = 60000`, no increment, white to move. -/
def c6s_game : Game := mkGame startPosition .ongoing 500 60000 0 .white (some 0)

def c6s_after : Game :=
  match make_move c6s_game true ⟨12, 28, none⟩ 600 with
  | .ok g => g
  | .error _ => c6s_game

/-! ## Claims -/

/-- C10: `live_clocks` applies elapsed wall-clock time only while the game is
ongoing — for a game whose result is not `ongoing`, or whose
`last_clock_update` is unset, it returns exactly the stored clock pair. -/
theorem live_clocks_finished_frozen (g : Game) (now : Int)
    (h : g.result ≠ GameResult.ongoing ∨ g.last_clock_update = none) :
    live_clocks g now = (g.white_clock_ms, g.black_clock_ms) := by
  have hc : ¬(g.result = GameResult.ongoing ∧ g.last_clock_update.isSome = true) := by
    rcases h with h | h
    · exact fun hh => h hh.1
    · intro hh
      rw [h] at hh
      exact Bool.false_ne_true hh.2
  simp [live_clocks, hc]

/-- Witness for C10 at a finished game with stored clocks `(1000, 2000)`. -/
theorem live_clocks_finished_frozen_witness :
    live_clocks (mkGame startPosition GameResult.white 1000 2000 0 Color.white (some 0)) 500 =
      (1000, 2000) :=
  live_clocks_finished_frozen _ 500 (Or.inl (by decide))

/-- C4, counterexample: with `win_streak = 2` before the game, a non-berserk
win adds `+3`, not the `+2` the claim (streak bonus only when the prior
streak is strictly greater than 2) predicts: the source increments the streak
before testing `win_streak > STREAK_THRESHOLD`. -/
theorem apply_score_streak_bonus_at_two :
    (apply_score { tpFix with win_streak := 2 } Outcome.win false).score = 3 ∧
      ¬((apply_score { tpFix with win_streak := 2 } Outcome.win false).score = 2) := by
  decide

/-- C4, amended: a win adds `+2`, plus `+1` when the *incremented* streak
exceeds 2 (i.e. the streak before the game is at least 2), plus `+1` when
berserk; wins, streak and games_played are incremented.  Draws add `+1` and
reset the streak; losses add `0` and reset the streak; `games_played`
increments in all cases. -/
theorem apply_score_spec (tp : TournamentPlayer) (b : Bool) :
    (apply_score tp Outcome.win b).score =
        tp.score + 2 + (if 2 < tp.win_streak + 1 then 1 else 0) + (if b then 1 else 0) ∧
      (apply_score tp Outcome.win b).wins = tp.wins + 1 ∧
      (apply_score tp Outcome.win b).win_streak = tp.win_streak + 1 ∧
      (apply_score tp Outcome.win b).games_played = tp.games_played + 1 ∧
      (apply_score tp Outcome.win b).berserks = tp.berserks + (if b then 1 else 0) ∧
      (apply_score tp Outcome.draw b).score = tp.score + 1 ∧
      (apply_score tp Outcome.draw b).win_streak = 0 ∧
      (apply_score tp Outcome.draw b).draws = tp.draws + 1 ∧
      (apply_score tp Outcome.draw b).games_played = tp.games_played + 1 ∧
      (apply_score tp Outcome.loss b).score = tp.score ∧
      (apply_score tp Outcome.loss b).win_streak = 0 ∧
      (apply_score tp Outcome.loss b).losses = tp.losses + 1 ∧
      (apply_score tp Outcome.loss b).games_played = tp.games_played + 1 := by
  cases b <;> by_cases h : 2 < tp.win_streak + 1 <;>
    simp [apply_score, h]

/-- C1: `submit_result` is *not* idempotent on an already-finished game.  In
`c1_state` game `1` is already finished `white` and scored (winner at
`score = 2, wins = 1`); a second `submit_result` leaves the game row alone
but re-runs `_apply_game_result_to_tournament`, pushing the winner to
`score = 4, wins = 2, games_played = 2` and re-stamping `queue_joined_at`,
for every performance estimator and rating updater. -/
theorem submit_result_double_applies
    (perfR : List ℚ → List ℚ → ℚ)
    (updR : ℚ → ℚ → ℚ → List ℚ → List ℚ → List ℚ → ℚ × ℚ × ℚ) :
    (findGame c1_state 1).map Game.result = some GameResult.white ∧
    (findTP c1_state 1 1).map TournamentPlayer.score = some 2 ∧
    (findTP c1_state 1 1).map TournamentPlayer.queue_joined_at = some (some 100) ∧
    (findTP (submit_result perfR updR c1_state 1 GameResult.white false false 200) 1 1).map
      TournamentPlayer.score = some 4 ∧
    (findTP (submit_result perfR updR c1_state 1 GameResult.white false false 200) 1 1).map
      TournamentPlayer.wins = some 2 ∧
    (findTP (submit_result perfR updR c1_state 1 GameResult.white false false 200) 1 1).map
      TournamentPlayer.games_played = some 2 ∧
    (findTP (submit_result perfR updR c1_state 1 GameResult.white false false 200) 1 1).map
      TournamentPlayer.queue_joined_at = some (some 200) ∧
    (findTP (submit_result perfR updR c1_state 1 GameResult.white false false 200) 1 2).map
      TournamentPlayer.losses = some 2 :=
  ⟨rfl, rfl, rfl, rfl, rfl, rfl, rfl, rfl⟩

/-! ### Time-control parsing lemmas -/

theorem digit_ne_of (c d : Char) (h : c.isDigit = true) (hd : d.isDigit = false) :
    c ≠ d := by
  rintro rfl
  rw [h] at hd
  exact absurd hd (by decide)

theorem digit_not_ws (c : Char) (h : c.isDigit = true) : pyWhitespace c = false := by
  have h1 := digit_ne_of c ' ' h (by decide)
  have h2 := digit_ne_of c '\t' h (by decide)
  have h3 := digit_ne_of c '\n' h (by decide)
  have h4 := digit_ne_of c '\r' h (by decide)
  have h5 := digit_ne_of c '\x0b' h (by decide)
  have h6 := digit_ne_of c '\x0c' h (by decide)
  simp [pyWhitespace, h1, h2, h3, h4, h5, h6]

theorem dropWhile_eq_self_of (p : Char → Bool) (l : List Char)
    (h : ∀ c ∈ l, p c = false) : l.dropWhile p = l := by
  cases l with
  | nil => rfl
  | cons c t => simp [List.dropWhile_cons, h c (by simp)]

theorem pyStrip_digits (l : List Char) (h : ∀ c ∈ l, c.isDigit = true) :
    pyStrip l = l := by
  unfold pyStrip
  rw [dropWhile_eq_self_of _ _ fun c hc => digit_not_ws c (h c hc)]
  rw [dropWhile_eq_self_of _ _ fun c hc =>
    digit_not_ws c (h c (List.mem_reverse.mp hc))]
  exact List.reverse_reverse l

theorem pyDigits_run (l : List Char) (h : ∀ c ∈ l, c.isDigit = true) :
    ∀ acc : Nat,
      pyDigits l acc true =
        some (l.foldl (fun a c => a * 10 + (c.toNat - '0'.toNat)) acc) := by
  induction l with
  | nil => intro acc; rfl
  | cons c t ih =>
    intro acc
    have hc : c.isDigit = true := h c (by simp)
    simp only [pyDigits, hc, if_pos]
    exact ih (fun x hx => h x (by simp [hx])) _

theorem pyInt_digits (l : List Char) (hne : l ≠ [])
    (h : ∀ c ∈ l, c.isDigit = true) :
    pyInt l = some (Int.ofNat (digitsVal l)) := by
  obtain ⟨c, t, rfl⟩ := List.exists_cons_of_ne_nil hne
  have hc : c.isDigit = true := h c (by simp)
  have hplus : c ≠ '+' := digit_ne_of c '+' hc (by decide)
  have hminus : c ≠ '-' := digit_ne_of c '-' hc (by decide)
  unfold pyInt
  rw [pyStrip_digits _ h]
  have hrun : pyDigits (c :: t) 0 false = some (digitsVal (c :: t)) := by
    simp only [pyDigits, hc, if_pos]
    exact pyDigits_run t (fun x hx => h x (by simp [hx])) _
  split
  · rename_i rest heq
    injection heq with h1 _
    exact absurd h1 hplus
  · rename_i rest heq
    injection heq with h1 _
    exact absurd h1 hminus
  · rw [hrun]
    rfl

theorem pySplit_sepfree (sep : Char) (l : List Char) (h : ∀ c ∈ l, ¬(c = sep)) :
    pySplit sep l = [l] := by
  induction l with
  | nil => rfl
  | cons c t ih =>
    have hc : ¬(c = sep) := h c (by simp)
    simp only [pySplit, if_neg hc, ih fun x hx => h x (by simp [hx])]

theorem pySplit_append_sep (sep : Char) (xs ys : List Char)
    (h : ∀ c ∈ xs, ¬(c = sep)) :
    pySplit sep (xs ++ sep :: ys) = xs :: pySplit sep ys := by
  induction xs with
  | nil => simp [pySplit]
  | cons c t ih =>
    have hc : ¬(c = sep) := h c (by simp)
    have iht := ih fun x hx => h x (by simp [hx])
    simp only [List.cons_append, pySplit, if_neg hc, List.append_eq, iht]

/-- C8, counterexample: the bare string `"5"` is not of the form `"M+I"`,
yet `_parse_time_control` returns `(300000, 0)` — `int(parts[1]) if
len(parts) > 1 else 0` silently accepts a missing increment — instead of the
claimed default `(180000, 2000)`. -/
theorem parse_time_control_bare_integer :
    parse_time_control "5" = (300000, 0) ∧
      ¬(parse_time_control "5" = (180000, 2000)) := by
  decide

/-- C8, amended: every string of the exact form `"M+I"` with `M`, `I`
non-negative decimal integers parses to `(M * 60000, I * 1000)`; a bare
integer string `"M"` parses to `(M * 60000, 0)` rather than the default; the
default `(180000, 2000)` is returned when integer conversion fails (e.g. a
non-numeric string or the empty string). -/
theorem parse_time_control_spec :
    (∀ m i : List Char, m ≠ [] → i ≠ [] →
      (∀ c ∈ m, c.isDigit = true) → (∀ c ∈ i, c.isDigit = true) →
      parse_time_control ⟨m ++ '+' :: i⟩ =
        ((digitsVal m : Int) * 60000, (digitsVal i : Int) * 1000)) ∧
    (∀ m : List Char, m ≠ [] → (∀ c ∈ m, c.isDigit = true) →
      parse_time_control ⟨m⟩ = ((digitsVal m : Int) * 60000, 0)) ∧
    parse_time_control "x" = (180000, 2000) ∧
    parse_time_control "" = (180000, 2000) := by
  refine ⟨?_, ?_, by decide, by decide⟩
  · intro m i hm hi hdm hdi
    show parse_time_control (String.mk (m ++ '+' :: i)) = _
    unfold parse_time_control
    rw [show (String.mk (m ++ '+' :: i)).data = m ++ '+' :: i from rfl]
    simp only [pySplit_append_sep '+' m i
        (fun c hc => digit_ne_of c '+' (hdm c hc) (by decide)),
      pySplit_sepfree '+' i
        (fun c hc => digit_ne_of c '+' (hdi c hc) (by decide)),
      pyInt_digits m hm hdm, pyInt_digits i hi hdi]
    rfl
  · intro m hm hdm
    show parse_time_control (String.mk m) = _
    unfold parse_time_control
    rw [show (String.mk m).data = m from rfl]
    simp only [pySplit_sepfree '+' m
        (fun c hc => digit_ne_of c '+' (hdm c hc) (by decide)),
      pyInt_digits m hm hdm]
    rfl

/-- Witness for C8 at the well-formed string `"1+2"`. -/
theorem parse_time_control_spec_witness :
    parse_time_control "1+2" = (60000, 2000) :=
  parse_time_control_spec.1 ['1'] ['2'] (by decide) (by decide) (by decide) (by decide)

/-- C9: `update_rating` on an empty opponent batch keeps the rating and the
volatility, and only inflates the RD to
`min(sqrt(rd² + (volatility·173.7178)²), 350)`; for `30 ≤ rd ≤ 350` the new
RD is at least the old one and stays inside `[30, 350]`. -/
theorem update_rating_empty_spec (r rd vol : ℝ) (h30 : 30 ≤ rd) (h350 : rd ≤ 350) :
    update_rating_empty r rd vol =
        (r, min (Real.sqrt (rd ^ 2 + (vol * 173.7178) ^ 2)) 350, vol) ∧
      rd ≤ (update_rating_empty r rd vol).2.1 ∧
      30 ≤ (update_rating_empty r rd vol).2.1 ∧
      (update_rating_empty r rd vol).2.1 ≤ 350 := by
  have hs : (0 : ℝ) < GLICKO2_SCALE := by norm_num [GLICKO2_SCALE]
  have key : Real.sqrt (rd ^ 2 / GLICKO2_SCALE ^ 2 + vol ^ 2) * GLICKO2_SCALE =
      Real.sqrt (rd ^ 2 + (vol * GLICKO2_SCALE) ^ 2) := by
    rw [show rd ^ 2 / GLICKO2_SCALE ^ 2 + vol ^ 2 =
        (rd ^ 2 + (vol * GLICKO2_SCALE) ^ 2) / GLICKO2_SCALE ^ 2 by
      field_simp; ring]
    rw [Real.sqrt_div (by positivity) _, Real.sqrt_sq hs.le,
      div_mul_cancel₀ _ (ne_of_gt hs)]
  have hval : update_rating_empty r rd vol =
      (r, min (Real.sqrt (rd ^ 2 + (vol * 173.7178) ^ 2)) 350, vol) := by
    show (r, min (Real.sqrt (rd ^ 2 / GLICKO2_SCALE ^ 2 + vol ^ 2) * GLICKO2_SCALE) 350,
        vol) = _
    rw [key]
    rfl
  have h0 : (0 : ℝ) ≤ rd := le_trans (by norm_num) h30
  have hle : rd ≤ Real.sqrt (rd ^ 2 + (vol * 173.7178) ^ 2) := by
    calc rd = Real.sqrt (rd ^ 2) := (Real.sqrt_sq h0).symm
    _ ≤ Real.sqrt (rd ^ 2 + (vol * 173.7178) ^ 2) :=
        Real.sqrt_le_sqrt (le_add_of_nonneg_right (sq_nonneg _))
  refine ⟨hval, ?_, ?_, ?_⟩
  · rw [hval]
    exact le_min hle h350
  · rw [hval]
    exact le_trans h30 (le_min hle h350)
  · rw [hval]
    exact min_le_right _ _

/-- Witness for C9 at the default triple `(500, 250, 0.06)`. -/
theorem update_rating_empty_spec_witness :
    (30 : ℝ) ≤ 250 ∧ (250 : ℝ) ≤ 350 ∧
      (update_rating_empty 500 250 0.06 =
          (500, min (Real.sqrt (250 ^ 2 + ((0.06 : ℝ) * 173.7178) ^ 2)) 350, 0.06) ∧
        (250 : ℝ) ≤ (update_rating_empty 500 250 0.06).2.1 ∧
        30 ≤ (update_rating_empty 500 250 0.06).2.1 ∧
        (update_rating_empty 500 250 0.06).2.1 ≤ 350) :=
  ⟨by norm_num, by norm_num,
    update_rating_empty_spec 500 250 0.06 (by norm_num) (by norm_num)⟩

/-! ### The move operation, structurally -/

theorem move_updated_board (g : Game) (w : Bool) (m : Move) (now : Int) :
    (move_updated g w m now).board = applyMove g.board m := by
  unfold move_updated
  cases g.last_clock_update <;> cases w <;> rfl

theorem move_updated_result (g : Game) (w : Bool) (m : Move) (now : Int) :
    (move_updated g w m now).result = g.result := by
  unfold move_updated
  cases g.last_clock_update <;> cases w <;> rfl

theorem move_updated_last (g : Game) (w : Bool) (m : Move) (now : Int) :
    (move_updated g w m now).last_clock_update = some now := by
  unfold move_updated
  cases g.last_clock_update <;> cases w <;> rfl

/-- Case analysis of a successful `make_move`: the game was ongoing, and the
output is the mutated game, stamped with a result exactly when terminal
detection fires. -/
theorem make_move_ok (g : Game) (w : Bool) (m : Move) (now : Int) (g' : Game)
    (h : make_move g w m now = Except.ok g') :
    g.result = GameResult.ongoing ∧
      ((∃ r, result_after_move (move_updated g w m now).board w
          (move_updated g w m now).white_clock_ms
          (move_updated g w m now).black_clock_ms = some r ∧
        g' = { move_updated g w m now with result := r, ended_at := some now }) ∨
      (result_after_move (move_updated g w m now).board w
          (move_updated g w m now).white_clock_ms
          (move_updated g w m now).black_clock_ms = none ∧
        g' = move_updated g w m now)) := by
  unfold make_move at h
  split at h
  · exact absurd h (by simp)
  · rename_i hongoing
    refine ⟨not_not.mp hongoing, ?_⟩
    split at h
    · exact absurd h (by simp)
    · split at h
      · exact absurd h (by simp)
      · split at h
        · rename_i r heq
          injection h with h
          exact Or.inl ⟨r, heq, h.symm⟩
        · rename_i heq
          injection h with h
          exact Or.inr ⟨heq, h.symm⟩

/-- Case analysis of a successful `bot_apply_move`; the mover is the side to
move on the stored board. -/
theorem bot_apply_move_ok (g : Game) (m : Move) (now : Int) (g' : Game)
    (h : bot_apply_move g m now = Except.ok g') :
    g.result = GameResult.ongoing ∧
      ((∃ r, result_after_move
          (move_updated g (g.board.turn == Color.white) m now).board
          (g.board.turn == Color.white)
          (move_updated g (g.board.turn == Color.white) m now).white_clock_ms
          (move_updated g (g.board.turn == Color.white) m now).black_clock_ms = some r ∧
        g' = { move_updated g (g.board.turn == Color.white) m now with
                result := r, ended_at := some now }) ∨
      (result_after_move
          (move_updated g (g.board.turn == Color.white) m now).board
          (g.board.turn == Color.white)
          (move_updated g (g.board.turn == Color.white) m now).white_clock_ms
          (move_updated g (g.board.turn == Color.white) m now).black_clock_ms = none ∧
        g' = move_updated g (g.board.turn == Color.white) m now)) := by
  unfold bot_apply_move at h
  split at h
  · exact absurd h (by simp)
  · rename_i hongoing
    refine ⟨not_not.mp hongoing, ?_⟩
    split at h
    · exact absurd h (by simp)
    · split at h
      · rename_i r heq
        injection h with h
        exact Or.inl ⟨r, heq, h.symm⟩
      · rename_i heq
        injection h with h
        exact Or.inr ⟨heq, h.symm⟩

/-- The clock sweep either leaves the game alone or stamps a flag-fall result
and `ended_at`, touching nothing else. -/
theorem check_clock_timeout_cases (g : Game) (now : Int) :
    check_clock_timeout g now = g ∨
      check_clock_timeout g now =
        { g with result := GameResult.black, ended_at := some now } ∨
      check_clock_timeout g now =
        { g with result := GameResult.white, ended_at := some now } := by
  unfold check_clock_timeout
  split
  · exact Or.inl rfl
  · split
    · exact Or.inl rfl
    · dsimp only
      repeat' split
      all_goals
        first
          | exact Or.inl rfl
          | exact Or.inr (Or.inl rfl)
          | exact Or.inr (Or.inr rfl)

/-- C2, counterexample: resignation stamps `ended_at = now` but does not
touch `last_clock_update`, so on the resigned game `last_clock_update`
(`1000`) differs from `ended_at` (`5000`). -/
theorem resign_breaks_clock_sync :
    resign c2_game true 5000 = Except.ok c2_resigned ∧
      c2_resigned.result = GameResult.black ∧
      c2_resigned.ended_at = some 5000 ∧
      c2_resigned.last_clock_update = some 1000 ∧
      ¬(c2_resigned.last_clock_update = c2_resigned.ended_at) := by
  exact ⟨rfl, rfl, rfl, rfl, by decide⟩

/-- C2, amended: every terminating operation sets `ended_at = now`.  The move
operation and the time claim also leave `last_clock_update = now = ended_at`;
resignation and the engine clock sweep leave `last_clock_update` (and the
stored clock fields) at their pre-termination values, so for those two paths
`last_clock_update = ended_at` fails in general.  (Once `result ≠ ongoing`,
the stored clocks are frozen for readers by C10's `live_clocks` behaviour.) -/
theorem termination_stamps :
    (∀ g w m now g', make_move g w m now = Except.ok g' →
        g'.result ≠ GameResult.ongoing →
        g'.ended_at = some now ∧ g'.last_clock_update = some now) ∧
    (∀ g c now out, claim_time g c now = Except.ok out →
        out.1.result ≠ GameResult.ongoing →
        out.1.ended_at = some now ∧ out.1.last_clock_update = some now) ∧
    (∀ g c now g', resign g c now = Except.ok g' →
        g'.result ≠ GameResult.ongoing ∧ g'.ended_at = some now ∧
          g'.last_clock_update = g.last_clock_update ∧
          g'.white_clock_ms = g.white_clock_ms ∧
          g'.black_clock_ms = g.black_clock_ms) ∧
    (∀ g now, (check_clock_timeout g now).result ≠ g.result →
        (check_clock_timeout g now).ended_at = some now ∧
          (check_clock_timeout g now).last_clock_update = g.last_clock_update ∧
          (check_clock_timeout g now).white_clock_ms = g.white_clock_ms ∧
          (check_clock_timeout g now).black_clock_ms = g.black_clock_ms) := by
  refine ⟨?_, ?_, ?_, ?_⟩
  · intro g w m now g' h hterm
    obtain ⟨hong, hcases⟩ := make_move_ok g w m now g' h
    rcases hcases with ⟨r, _, rfl⟩ | ⟨_, rfl⟩
    · exact ⟨rfl, move_updated_last g w m now⟩
    · rw [move_updated_result g w m now] at hterm
      exact absurd hong hterm
  · intro g c now out h hterm
    unfold claim_time at h
    split at h
    · exact absurd h (by simp)
    · rename_i hong
      dsimp only at h
      split at h
      · injection h with h
        rw [← h]
        exact ⟨rfl, rfl⟩
      · injection h with h
        rw [← h] at hterm
        exact absurd (not_not.mp hong) hterm
  · intro g c now g' h
    unfold resign at h
    split at h
    · exact absurd h (by simp)
    · injection h with h
      subst h
      refine ⟨?_, rfl, rfl, rfl, rfl⟩
      cases c <;> simp
  · intro g now h
    rcases check_clock_timeout_cases g now with heq | heq | heq
    · rw [heq] at h
      exact absurd rfl h
    · rw [heq]
      exact ⟨rfl, rfl, rfl, rfl⟩
    · rw [heq]
      exact ⟨rfl, rfl, rfl, rfl⟩

/-- Witness for C2's amended statement, at white resigning `c2_game` at
`now = 5000`. -/
theorem termination_stamps_witness :
    c2_resigned.result ≠ GameResult.ongoing ∧ c2_resigned.ended_at = some 5000 ∧
      c2_resigned.last_clock_update = c2_game.last_clock_update ∧
      c2_resigned.white_clock_ms = c2_game.white_clock_ms ∧
      c2_resigned.black_clock_ms = c2_game.black_clock_ms :=
  termination_stamps.2.2.1 c2_game true 5000 c2_resigned rfl

set_option maxHeartbeats 4000000 in
/-- C3: when a successful move leaves the resulting board in checkmate, the
result is the mover's colour — on the human endpoint (`is_white` wins), on
the bot path (side to move on the stored board wins) — and the Scholar's
mate sequence `e2e4 e7e5 f1c4 b8c6 d1h5 g8f6 h5f7` ends `white`. -/
theorem checkmate_mover_wins :
    (∀ g w m now g', make_move g w m now = Except.ok g' →
        isCheckmate g'.board = true →
        g'.result = (if w then GameResult.white else GameResult.black)) ∧
    (∀ g m now g', bot_apply_move g m now = Except.ok g' →
        isCheckmate g'.board = true →
        g'.result =
          (if g.board.turn == Color.white then GameResult.white else GameResult.black)) ∧
    resultOf (playMoves scholarStart scholarSeq 0) = some GameResult.white := by
  refine ⟨?_, ?_, by decide⟩
  · intro g w m now g' h hc
    obtain ⟨hong, hcase⟩ := make_move_ok g w m now g' h
    rcases hcase with ⟨r, heq, rfl⟩ | ⟨heq, rfl⟩
    · dsimp only at hc ⊢
      simp only [result_after_move, hc, if_true] at heq
      cases w <;> simpa using heq.symm
    · simp [result_after_move, hc] at heq
  · intro g m now g' h hc
    obtain ⟨hong, hcase⟩ := bot_apply_move_ok g m now g' h
    rcases hcase with ⟨r, heq, rfl⟩ | ⟨heq, rfl⟩
    · dsimp only at hc ⊢
      simp only [result_after_move, hc, if_true] at heq
      cases hw : g.board.turn == Color.white <;> rw [hw] at heq <;> simpa using heq.symm
    · simp [result_after_move, hc] at heq

/-- Witness for C3 at a sparse mate-in-one (`Qg1-g7` mate against a bare
king). -/
theorem checkmate_mover_wins_witness :
    make_move miniGame true ⟨6, 54, none⟩ 0 = Except.ok miniAfter ∧
      isCheckmate miniAfter.board = true ∧ miniAfter.result = GameResult.white :=
  ⟨rfl, by decide,
    checkmate_mover_wins.1 miniGame true ⟨6, 54, none⟩ 0 miniAfter rfl (by decide)⟩

set_option maxHeartbeats 4000000 in
/-- C6, counterexample: the flag-fall branch tests white's clock first.  On
`c6x_game` (after `1.e4`, ongoing, white's *stored* clock 0, black's 100 ms,
no increment) black moves `e7e5` after 600 ms: black — the mover whose clock
just fell, with no checkmate/stalemate/insufficient/75-move termination —
is awarded the win instead of the claimed opponent (white). -/
theorem black_flag_fall_mover_wins :
    make_move c6x_game false ⟨52, 36, none⟩ 600 = Except.ok c6x_after ∧
      isCheckmate c6x_after.board = false ∧
      isStalemate c6x_after.board = false ∧
      isInsufficientMaterial c6x_after.board = false ∧
      isSeventyFiveMoves c6x_after.board = false ∧
      c6x_after.black_clock_ms ≤ 0 ∧
      c6x_after.result = GameResult.black ∧
      ¬(c6x_after.result = GameResult.white) :=
  ⟨rfl, by decide, by decide, by decide, by decide, by decide, rfl, by decide⟩

set_option maxHeartbeats 4000000 in
/-- C6, amended: after the clock update, with no
checkmate/stalemate/insufficient-material/75-move termination, a white mover
whose updated clock is `≤ 0` loses (`black`); a black mover whose updated
clock is `≤ 0` loses (`white`) provided white's stored clock is positive —
the code checks white's clock first, so with both clocks `≤ 0` black is
awarded the game whoever moved.  The spec's scenario (white 500 ms, black
60000 ms, `0+0`, white moves after 600 ms) ends `black` with white's clock
frozen at 0. -/
theorem flag_fall_attribution :
    (∀ g m now g', make_move g true m now = Except.ok g' →
        isCheckmate g'.board = false → isStalemate g'.board = false →
        isInsufficientMaterial g'.board = false → isSeventyFiveMoves g'.board = false →
        g'.white_clock_ms ≤ 0 → g'.result = GameResult.black) ∧
    (∀ g m now g', make_move g false m now = Except.ok g' →
        isCheckmate g'.board = false → isStalemate g'.board = false →
        isInsufficientMaterial g'.board = false → isSeventyFiveMoves g'.board = false →
        g'.black_clock_ms ≤ 0 → 0 < g'.white_clock_ms → g'.result = GameResult.white) ∧
    make_move c6s_game true ⟨12, 28, none⟩ 600 = Except.ok c6s_after ∧
      c6s_after.result = GameResult.black ∧ c6s_after.white_clock_ms = 0 := by
  refine ⟨?_, ?_, rfl, rfl, rfl⟩
  · intro g m now g' h hcm hst hins h75 hwc
    obtain ⟨hong, hcase⟩ := make_move_ok g true m now g' h
    rcases hcase with ⟨r, heq, rfl⟩ | ⟨heq, rfl⟩
    · dsimp only at hcm hst hins h75 hwc ⊢
      simp only [result_after_move, hcm, hst, hins, h75, Bool.false_eq_true, if_false,
        Bool.or_self] at heq
      rw [if_pos hwc] at heq
      injection heq with heq
      exact heq.symm
    · simp only [result_after_move, hcm, hst, hins, h75, Bool.false_eq_true, if_false,
        Bool.or_self] at heq
      rw [if_pos hwc] at heq
      exact Option.noConfusion heq
  · intro g m now g' h hcm hst hins h75 hbc hwc
    obtain ⟨hong, hcase⟩ := make_move_ok g false m now g' h
    rcases hcase with ⟨r, heq, rfl⟩ | ⟨heq, rfl⟩
    · dsimp only at hcm hst hins h75 hbc hwc ⊢
      simp only [result_after_move, hcm, hst, hins, h75, Bool.false_eq_true, if_false,
        Bool.or_self] at heq
      rw [if_neg (not_le.mpr hwc), if_pos hbc] at heq
      injection heq with heq
      exact heq.symm
    · simp only [result_after_move, hcm, hst, hins, h75, Bool.false_eq_true, if_false,
        Bool.or_self] at heq
      rw [if_neg (not_le.mpr hwc), if_pos hbc] at heq
      exact Option.noConfusion heq

set_option maxHeartbeats 4000000 in
/-- Witness for C6's amended statement, at the spec's flag-fall scenario. -/
theorem flag_fall_attribution_witness :
    c6s_after.result = GameResult.black :=
  flag_fall_attribution.1 c6s_game ⟨12, 28, none⟩ 600 c6s_after rfl (by decide)
    (by decide) (by decide) (by decide) (by decide)

/-! ### Pairing lemmas -/

theorem contains_of_mem {α} [BEq α] [LawfulBEq α] (l : List α) (a : α)
    (h : a ∈ l) : l.contains a = true := by
  simpa using h

/-- A candidate kept by one scan step is non-recent, unless it was the
incoming running best. -/
theorem find_best_step_spec (rf : Nat → ℚ) (tp : TournamentPlayer)
    (recent paired : List Nat) (acc : Option (TournamentPlayer × ℚ))
    (other : TournamentPlayer) (y : TournamentPlayer × ℚ)
    (h : find_best_step rf tp recent paired acc other = some y) :
    recent.contains y.1.player_id = false ∨ acc = some y := by
  unfold find_best_step at h
  split at h
  · exact Or.inr h
  · rename_i hcond
    simp only [Bool.or_eq_true, not_or, Bool.not_eq_true] at hcond
    have hrec : recent.contains other.player_id = false := hcond.2
    dsimp only at h
    split at h
    · injection h with h
      rw [← h]
      exact Or.inl hrec
    · rename_i bb
      split at h
      · injection h with h
        rw [← h]
        exact Or.inl hrec
      · exact Or.inr h

theorem find_best_fold (rf : Nat → ℚ) (tp : TournamentPlayer)
    (recent paired : List Nat) :
    ∀ (l : List TournamentPlayer) (acc : Option (TournamentPlayer × ℚ)),
      (∀ y, acc = some y → recent.contains y.1.player_id = false) →
      ∀ y, l.foldl (find_best_step rf tp recent paired) acc = some y →
        recent.contains y.1.player_id = false := by
  intro l
  induction l with
  | nil => intro acc hacc y hy; exact hacc y hy
  | cons o rest ih =>
    intro acc hacc y hy
    rw [List.foldl_cons] at hy
    refine ih _ (fun z hz => ?_) y hy
    rcases find_best_step_spec rf tp recent paired acc o z hz with h | h
    · exact h
    · exact hacc z h

theorem find_best_not_recent (rf : Nat → ℚ) (tp : TournamentPlayer)
    (queue : List TournamentPlayer) (recent paired : List Nat)
    (best : TournamentPlayer)
    (h : find_best rf tp queue recent paired = some best) :
    recent.contains best.player_id = false := by
  unfold find_best at h
  obtain ⟨y, hy, hyb⟩ := Option.map_eq_some'.mp h
  rw [← hyb]
  exact find_best_fold rf tp recent paired queue none
    (fun z hz => Option.noConfusion hz) y hy

theorem pair_loop_not_recent (rf : Nat → ℚ) (queue : List TournamentPlayer)
    (recentOf : Nat → List Nat) :
    ∀ (l : List TournamentPlayer) (paired : List Nat)
      (pr : TournamentPlayer × TournamentPlayer),
      pr ∈ pair_loop rf queue recentOf l paired →
      (recentOf pr.1.player_id).contains pr.2.player_id = false := by
  intro l
  induction l with
  | nil =>
    intro paired pr h
    simp [pair_loop] at h
  | cons tp rest ih =>
    intro paired pr h
    unfold pair_loop at h
    split at h
    · exact ih _ _ h
    · split at h
      · exact ih _ _ h
      · rename_i best hfb
        rcases List.mem_cons.mp h with heq | h'
        · rw [heq]
          exact find_best_not_recent rf tp queue _ paired best hfb
        · exact ih _ _ h'

/-- Every `PairingHistory` row inside the window feeds the recent-opponents
set of both of its players. -/
theorem recent_opponents_complete (hist : List PairingRow) (tid pid : Nat)
    (now : Int) (row : PairingRow) (hrow : row ∈ hist)
    (ht : row.tournament_id = tid) (hw : now - 600000 ≤ row.paired_at) :
    (row.player_a_id = pid →
      (get_recent_opponents hist tid pid now).contains row.player_b_id = true) ∧
    (row.player_b_id = pid →
      (get_recent_opponents hist tid pid now).contains row.player_a_id = true) := by
  constructor
  · intro ha
    refine contains_of_mem _ _ ?_
    unfold get_recent_opponents
    refine List.mem_map.mpr ⟨row, List.mem_filter.mpr ⟨hrow, ?_⟩, ?_⟩
    · simp [ht, ha, hw]
    · simp [ha]
  · intro hb
    refine contains_of_mem _ _ ?_
    unfold get_recent_opponents
    refine List.mem_map.mpr ⟨row, List.mem_filter.mpr ⟨hrow, ?_⟩, ?_⟩
    · simp [ht, hb, hw]
    · by_cases hap : row.player_a_id = pid
      · rw [if_pos (by simp [hap])]
        exact hb.trans hap.symm
      · rw [if_neg (by simpa using hap)]

/-- C7: the pairing phase never rematches a pair with a `PairingHistory` row
in this tournament within the last 10 minutes (in either colour order), and
every join row it does not pair survives the tick unchanged — in particular
such players remain queued. -/
theorem pairing_no_recent_rematch (s : ArenaState) (t : Tournament) (now : Int) :
    no_rematch_check s t now = true ∧ unpaired_unchanged_check s t now = true := by
  constructor
  · unfold no_rematch_check
    rw [List.all_eq_true]
    intro pr hpr
    rw [List.all_eq_true]
    intro row hrow
    have hnr : (get_recent_opponents s.pairing_history t.id pr.1.player_id
        now).contains pr.2.player_id = false := by
      unfold pair_tournament_pairs at hpr
      dsimp only at hpr
      split at hpr
      · cases hpr
      · have := pair_loop_not_recent _ _ _ _ _ _ hpr
        simpa using this
    rw [Bool.not_eq_true']
    by_contra hx
    rw [Bool.not_eq_false] at hx
    simp only [Bool.and_eq_true, Bool.or_eq_true, beq_iff_eq, decide_eq_true_eq] at hx
    obtain ⟨⟨htid, hwin⟩, hids⟩ := hx
    rcases hids with ⟨ha, hb⟩ | ⟨ha, hb⟩
    · have hcontains := (recent_opponents_complete s.pairing_history t.id
        pr.1.player_id now row hrow htid hwin).1 ha
      rw [hb] at hcontains
      rw [hnr] at hcontains
      exact absurd hcontains (by decide)
    · have hcontains := (recent_opponents_complete s.pairing_history t.id
        pr.1.player_id now row hrow htid hwin).2 hb
      rw [ha] at hcontains
      rw [hnr] at hcontains
      exact absurd hcontains (by decide)
  · unfold unpaired_unchanged_check
    rw [List.all_eq_true]
    intro tp htp
    rw [Bool.or_eq_true]
    by_cases hc : (tp.tournament_id == t.id &&
        (pairedPlayerIds s t now).contains tp.player_id) = true
    · exact Or.inl hc
    · refine Or.inr ?_
      have hmem : tp ∈ (pair_tournament s t now).tps := by
        unfold pair_tournament
        dsimp only
        refine List.mem_map.mpr ⟨tp, htp, ?_⟩
        rw [if_neg ?_]
        unfold pairedPlayerIds at hc
        exact hc
      exact contains_of_mem _ _ hmem

/-! ### Queue-invariant lemmas -/

theorem apply_score_fields (tp : TournamentPlayer) (o : Outcome) (b : Bool) :
    (apply_score tp o b).tournament_id = tp.tournament_id ∧
      (apply_score tp o b).player_id = tp.player_id ∧
      (apply_score tp o b).active = tp.active ∧
      (apply_score tp o b).in_queue = tp.in_queue := by
  cases o <;> cases b <;> by_cases h : 2 < tp.win_streak + 1 <;>
    simp [apply_score, h]

theorem update_performance_fields (perfR : List ℚ → List ℚ → ℚ) (s : ArenaState)
    (tp : TournamentPlayer) :
    (update_performance perfR s tp).tournament_id = tp.tournament_id ∧
      (update_performance perfR s tp).player_id = tp.player_id ∧
      (update_performance perfR s tp).active = tp.active ∧
      (update_performance perfR s tp).in_queue = tp.in_queue := by
  unfold update_performance
  dsimp only
  split <;> exact ⟨rfl, rfl, rfl, rfl⟩

theorem updateTP_mem_cases {l : List TournamentPlayer} {tid pid : Nat}
    {f : TournamentPlayer → TournamentPlayer} {tp' : TournamentPlayer}
    (h : tp' ∈ updateTP l tid pid f) :
    ∃ tp ∈ l,
      (tp' = f tp ∧ tp.tournament_id = tid ∧ tp.player_id = pid) ∨ tp' = tp := by
  unfold updateTP at h
  obtain ⟨tp, htp, heq⟩ := List.mem_map.mp h
  refine ⟨tp, htp, ?_⟩
  by_cases hc : (tp.tournament_id == tid && tp.player_id == pid) = true
  · rw [if_pos hc] at heq
    simp only [Bool.and_eq_true, beq_iff_eq] at hc
    exact Or.inl ⟨heq.symm, hc.1, hc.2⟩
  · rw [if_neg hc] at heq
    exact Or.inr heq.symm

/-- Transport `rowTransport` through one row mutation keyed `(tid, pid)`. -/
theorem updateTP_transport {base l : List TournamentPlayer} {wid bid tid pid : Nat}
    {f : TournamentPlayer → TournamentPlayer}
    (hl : ∀ tp' ∈ l, ∃ tp ∈ base, rowTransport wid bid tp' tp)
    (hf : ∀ tp, (f tp).tournament_id = tp.tournament_id ∧
        (f tp).player_id = tp.player_id ∧ (f tp).active = tp.active ∧
        ((f tp).in_queue = true → tp.in_queue = true ∨ pid = wid ∨ pid = bid)) :
    ∀ tp' ∈ updateTP l tid pid f, ∃ tp ∈ base, rowTransport wid bid tp' tp := by
  intro tp' h
  obtain ⟨tpl, htpl, hcase⟩ := updateTP_mem_cases h
  obtain ⟨tp0, htp0, hR⟩ := hl tpl htpl
  unfold rowTransport at hR
  rcases hcase with ⟨rfl, htid, hpid⟩ | rfl
  · refine ⟨tp0, htp0, (hf tpl).1.trans hR.1, (hf tpl).2.1.trans hR.2.1,
      (hf tpl).2.2.1.trans hR.2.2.1, ?_⟩
    intro hq
    rcases (hf tpl).2.2.2 hq with hq' | hcol
    · exact hR.2.2.2 hq'
    · rcases hcol with h1 | h1
      · exact Or.inr (Or.inl (hR.2.1.symm.trans (hpid.trans h1)))
      · exact Or.inr (Or.inr (hR.2.1.symm.trans (hpid.trans h1)))
  · exact ⟨tp0, htp0, hR⟩

theorem foldl_preserve {σ α : Type _} (f : σ → α → σ) (P : σ → Prop)
    (hstep : ∀ x a, P x → P (f x a)) :
    ∀ (l : List α) (x : σ), P x → P (l.foldl f x) := by
  intro l
  induction l with
  | nil => intro x hx; exact hx
  | cons a t ih =>
    intro x hx
    rw [List.foldl_cons]
    exact ih _ (hstep x a hx)

theorem finish_step_keeps (updR : ℚ → ℚ → ℚ → List ℚ → List ℚ → List ℚ → ℚ × ℚ × ℚ)
    (tid : Nat) (x : ArenaState) (tp : TournamentPlayer) :
    (finish_step updR tid x tp).tps = x.tps ∧
      (finish_step updR tid x tp).games = x.games := by
  unfold finish_step
  split
  · exact ⟨rfl, rfl⟩
  · dsimp only
    split <;> exact ⟨rfl, rfl⟩

theorem finish_tournament_keeps
    (updR : ℚ → ℚ → ℚ → List ℚ → List ℚ → List ℚ → ℚ × ℚ × ℚ)
    (s : ArenaState) (tid : Nat) :
    (finish_tournament updR s tid).tps = s.tps ∧
      (finish_tournament updR s tid).games = s.games := by
  unfold finish_tournament
  dsimp only
  refine foldl_preserve (finish_step updR tid)
    (fun x : ArenaState => x.tps = s.tps ∧ x.games = s.games) ?_ _ _ ⟨rfl, rfl⟩
  intro x a hx
  obtain ⟨h1, h2⟩ := finish_step_keeps updR tid x a
  exact ⟨h1.trans hx.1, h2.trans hx.2⟩

/-- Result application leaves the games table alone and relates every output
join row to an input row by `rowTransport` on the finished game's seats. -/
theorem apply_game_result_transport (perfR : List ℚ → List ℚ → ℚ)
    (updR : ℚ → ℚ → ℚ → List ℚ → List ℚ → List ℚ → ℚ × ℚ × ℚ)
    (s : ArenaState) (gid : Nat) (res : GameResult) (now : Int) (g : Game)
    (hg : findGame s gid = some g) :
    (apply_game_result_to_tournament perfR updR s gid res now).games = s.games ∧
      ∀ tp' ∈ (apply_game_result_to_tournament perfR updR s gid res now).tps,
        ∃ tp ∈ s.tps, rowTransport g.white_id g.black_id tp' tp := by
  have hrefl : ∀ tp' ∈ s.tps, ∃ tp ∈ s.tps,
      rowTransport g.white_id g.black_id tp' tp := by
    intro tp h
    exact ⟨tp, h, by unfold rowTransport; exact ⟨rfl, rfl, rfl, fun hq => Or.inl hq⟩⟩
  unfold apply_game_result_to_tournament
  rw [hg]
  dsimp only
  split
  · exact ⟨rfl, hrefl⟩
  · split
    · rename_i t ht
      split
      · refine ⟨(finish_tournament_keeps updR _ t.id).2, ?_⟩
        intro tp' htp'
        rw [(finish_tournament_keeps updR _ t.id).1] at htp'
        refine updateTP_transport (updateTP_transport (updateTP_transport
            (updateTP_transport (updateTP_transport (updateTP_transport
              hrefl ?_) ?_) ?_) ?_) ?_) ?_ tp' htp'
        · exact fun tp => ⟨(apply_score_fields tp _ _).1, (apply_score_fields tp _ _).2.1,
            (apply_score_fields tp _ _).2.2.1,
            fun hq => Or.inl ((apply_score_fields tp _ _).2.2.2.symm.trans hq)⟩
        · exact fun tp => ⟨(apply_score_fields tp _ _).1, (apply_score_fields tp _ _).2.1,
            (apply_score_fields tp _ _).2.2.1,
            fun hq => Or.inl ((apply_score_fields tp _ _).2.2.2.symm.trans hq)⟩
        · exact fun tp => ⟨(update_performance_fields perfR _ tp).1,
            (update_performance_fields perfR _ tp).2.1,
            (update_performance_fields perfR _ tp).2.2.1,
            fun hq => Or.inl ((update_performance_fields perfR _ tp).2.2.2.symm.trans hq)⟩
        · exact fun tp => ⟨(update_performance_fields perfR _ tp).1,
            (update_performance_fields perfR _ tp).2.1,
            (update_performance_fields perfR _ tp).2.2.1,
            fun hq => Or.inl ((update_performance_fields perfR _ tp).2.2.2.symm.trans hq)⟩
        · exact fun tp => ⟨rfl, rfl, rfl, fun _ => Or.inr (Or.inl rfl)⟩
        · exact fun tp => ⟨rfl, rfl, rfl, fun _ => Or.inr (Or.inr rfl)⟩
      · refine ⟨rfl, ?_⟩
        refine updateTP_transport (updateTP_transport (updateTP_transport
            (updateTP_transport (updateTP_transport (updateTP_transport
              hrefl ?_) ?_) ?_) ?_) ?_) ?_
        · exact fun tp => ⟨(apply_score_fields tp _ _).1, (apply_score_fields tp _ _).2.1,
            (apply_score_fields tp _ _).2.2.1,
            fun hq => Or.inl ((apply_score_fields tp _ _).2.2.2.symm.trans hq)⟩
        · exact fun tp => ⟨(apply_score_fields tp _ _).1, (apply_score_fields tp _ _).2.1,
            (apply_score_fields tp _ _).2.2.1,
            fun hq => Or.inl ((apply_score_fields tp _ _).2.2.2.symm.trans hq)⟩
        · exact fun tp => ⟨(update_performance_fields perfR _ tp).1,
            (update_performance_fields perfR _ tp).2.1,
            (update_performance_fields perfR _ tp).2.2.1,
            fun hq => Or.inl ((update_performance_fields perfR _ tp).2.2.2.symm.trans hq)⟩
        · exact fun tp => ⟨(update_performance_fields perfR _ tp).1,
            (update_performance_fields perfR _ tp).2.1,
            (update_performance_fields perfR _ tp).2.2.1,
            fun hq => Or.inl ((update_performance_fields perfR _ tp).2.2.2.symm.trans hq)⟩
        · exact fun tp => ⟨rfl, rfl, rfl, fun _ => Or.inr (Or.inl rfl)⟩
        · exact fun tp => ⟨rfl, rfl, rfl, fun _ => Or.inr (Or.inr rfl)⟩
    · refine ⟨rfl, ?_⟩
      refine updateTP_transport (updateTP_transport (updateTP_transport
          (updateTP_transport (updateTP_transport (updateTP_transport
            hrefl ?_) ?_) ?_) ?_) ?_) ?_
      · exact fun tp => ⟨(apply_score_fields tp _ _).1, (apply_score_fields tp _ _).2.1,
          (apply_score_fields tp _ _).2.2.1,
          fun hq => Or.inl ((apply_score_fields tp _ _).2.2.2.symm.trans hq)⟩
      · exact fun tp => ⟨(apply_score_fields tp _ _).1, (apply_score_fields tp _ _).2.1,
          (apply_score_fields tp _ _).2.2.1,
          fun hq => Or.inl ((apply_score_fields tp _ _).2.2.2.symm.trans hq)⟩
      · exact fun tp => ⟨(update_performance_fields perfR _ tp).1,
          (update_performance_fields perfR _ tp).2.1,
          (update_performance_fields perfR _ tp).2.2.1,
          fun hq => Or.inl ((update_performance_fields perfR _ tp).2.2.2.symm.trans hq)⟩
      · exact fun tp => ⟨(update_performance_fields perfR _ tp).1,
          (update_performance_fields perfR _ tp).2.1,
          (update_performance_fields perfR _ tp).2.2.1,
          fun hq => Or.inl ((update_performance_fields perfR _ tp).2.2.2.symm.trans hq)⟩
      · exact fun tp => ⟨rfl, rfl, rfl, fun _ => Or.inr (Or.inl rfl)⟩
      · exact fun tp => ⟨rfl, rfl, rfl, fun _ => Or.inr (Or.inr rfl)⟩

/-- C5, counterexample: in `c5_state` both players are mid-game (game `1`
ongoing, neither row queued) and the invariant holds; player `1` rejoining
the tournament sets their row's `in_queue` while they are still a participant
of the ongoing game, violating the invariant — `join_tournament` never checks
for ongoing games. -/
theorem join_enqueues_playing_player :
    queueInvariant c5_state ∧
      ¬queueInvariant (join_tournament c5_state 1 1 500) := by
  constructor
  · unfold queueInvariant
    decide
  · unfold queueInvariant
    decide

/-- C5, amended: leaving preserves the invariant; joining guarantees
`in_queue → active` (given it held before) but may enqueue a player who is in
an ongoing game; result application re-enqueues both seats unconditionally,
preserving the invariant only when both seats' rows are active and neither
player sits in any ongoing game; the pairing write phase clears `in_queue`
for every row it pairs. -/
theorem queue_invariant_ops :
    (∀ s tid pid, queueInvariant s → queueInvariant (leave_tournament s tid pid)) ∧
    (∀ s tid pid now, (∀ tp ∈ s.tps, tp.in_queue = true → tp.active = true) →
      ∀ tp ∈ (join_tournament s tid pid now).tps,
        tp.in_queue = true → tp.active = true) ∧
    (∀ perfR updR s gid res now g, queueInvariant s →
      findGame s gid = some g →
      (∀ tp ∈ s.tps, tp.player_id = g.white_id ∨ tp.player_id = g.black_id →
        tp.active = true) →
      (∀ g' ∈ s.games, g'.result = GameResult.ongoing →
        g'.white_id ≠ g.white_id ∧ g'.black_id ≠ g.white_id ∧
          g'.white_id ≠ g.black_id ∧ g'.black_id ≠ g.black_id) →
      queueInvariant (apply_game_result_to_tournament perfR updR s gid res now)) ∧
    (∀ s t now tp', tp' ∈ (pair_tournament s t now).tps →
      tp'.tournament_id = t.id →
      (pairedPlayerIds s t now).contains tp'.player_id = true →
      tp'.in_queue = false) := by
  refine ⟨?_, ?_, ?_, ?_⟩
  · intro s tid pid hInv tp' htp' hq
    obtain ⟨tp, htp, hcase⟩ := updateTP_mem_cases htp'
    rcases hcase with ⟨rfl, _, _⟩ | rfl
    · simp at hq
    · exact hInv tp' htp hq
  · intro s tid pid now hbase tp htp hq
    unfold join_tournament at htp
    split at htp
    · exact hbase tp htp hq
    · split at htp
      · exact hbase tp htp hq
      · split at htp
        · dsimp only at htp
          obtain ⟨tp0, htp0, hcase⟩ := updateTP_mem_cases htp
          rcases hcase with ⟨rfl, _, _⟩ | rfl
          · cases ha : tp0.active <;> cases hiq : tp0.in_queue <;>
              simp [ha, hiq]
          · exact hbase tp htp0 hq
        · dsimp only at htp
          rcases List.mem_append.mp htp with h | h
          · exact hbase tp h hq
          · simp only [List.mem_singleton] at h
            rw [h]
  · intro perfR updR s gid res now g hInv hg hact hidle
    obtain ⟨hgames, htrans⟩ := apply_game_result_transport perfR updR s gid res now g hg
    intro tp' htp' hq
    obtain ⟨tp, htp, hR⟩ := htrans tp' htp'
    unfold rowTransport at hR
    obtain ⟨hT, hP, hA, hQ⟩ := hR
    rcases hQ hq with hq0 | hcol
    · obtain ⟨ha, hng⟩ := hInv tp htp hq0
      refine ⟨hA.trans ha, ?_⟩
      intro g' hg' hres
      rw [hgames] at hg'
      rw [hP]
      exact hng g' hg' hres
    · have ha : tp.active = true := hact tp htp hcol
      refine ⟨hA.trans ha, ?_⟩
      intro g' hg' hres
      rw [hgames] at hg'
      have h4 := hidle g' hg' hres
      rw [hP]
      rcases hcol with hw | hb
      · rw [hw]
        exact ⟨h4.1, h4.2.1⟩
      · rw [hb]
        exact ⟨h4.2.2.1, h4.2.2.2⟩
  · intro s t now tp' htp' htid hcont
    unfold pair_tournament at htp'
    dsimp only at htp'
    obtain ⟨tp, htp, heq⟩ := List.mem_map.mp htp'
    by_cases hc : (tp.tournament_id == t.id &&
        ((pair_tournament_pairs s t now).flatMap
          (fun pr => [pr.1.player_id, pr.2.player_id])).contains tp.player_id) = true
    · rw [if_pos hc] at heq
      rw [← heq]
    · rw [if_neg hc] at heq
      refine absurd ?_ hc
      rw [heq]
      unfold pairedPlayerIds at hcont
      simp only [Bool.and_eq_true, beq_iff_eq]
      exact ⟨htid, hcont⟩

/-- Witness for C5's amended statement: leaving preserves the invariant on
`c5_state`. -/
theorem queue_invariant_ops_witness :
    queueInvariant (leave_tournament c5_state 1 1) :=
  queue_invariant_ops.1 c5_state 1 1 (by unfold queueInvariant; decide)

end Tourney
